import Mathlib

/-!
# botgo: handler registration, event dispatch and the local session manager

A shallow embedding of

* `websocket/handler.go` (`RegisterHandlers`, `registerRelationHandlers`,
  `registerMessageHandlers`),
* `websocket/client/event.go` (`eventParseFuncMap`, `parseAndHandle` and the nine
  dispatch functions),
* `dto/event_handler.go` (`DefaultHandlers` and the handler types),
* `sessions/local/local.go` (`ChanManager`: `Start`, `Stop`, `newConnect`).

Go values are modelled as follows.  A Go `error` is `Option Error` (`none` is `nil`).
A func value is `Option (args → result)` (`none` is the nil func).  The variable
`dto.DefaultHandlers`, which is process-wide, is passed explicitly: a function that writes it
returns the new registry, a function that reads it takes the registry as an argument.  A function that
calls user callbacks returns, next to its result, the list of calls it made.
`dto.Intent` is Go `int`; `|` and `&` on it are `Int.lor` and `Int.land`, which act on the
same bit patterns and cannot overflow.
-/

namespace Botgo

/-! ## Package dto -/

/-- Go `error` values that are not nil. -/
abbrev Error := String

/-- Go `[]byte`. -/
abbrev Bytes := List UInt8

/-- Type `dto.OPCode`. -/
abbrev OPCode := Int

/-- Type `dto.Intent` (Go `int`). -/
abbrev Intent := Int

/-- Type `dto.EventType`.  The twenty constants are the keys of the map literal
`eventParseFuncMap[dto.WSDispatchEvent]`, which Go only accepts when they are pairwise
distinct; `other` stands for every other event type. -/
inductive EventType where
  | EventGuildCreate
  | EventGuildUpdate
  | EventGuildDelete
  | EventChannelCreate
  | EventChannelUpdate
  | EventChannelDelete
  | EventGuildMemberAdd
  | EventGuildMemberUpdate
  | EventGuildMemberRemove
  | EventMessageCreate
  | EventMessageReactionAdd
  | EventMessageReactionRemove
  | EventAtMessageCreate
  | EventDirectMessageCreate
  | EventAudioStart
  | EventAudioFinish
  | EventAudioOnMic
  | EventAudioOffMic
  | EventMessageAuditPass
  | EventMessageAuditReject
  | other (name : String)
  deriving DecidableEq, Repr

/-- Type `dto.WSPayload`, with the fields that the translated code reads. -/
structure WSPayload where
  OPCode : OPCode
  Type_ : EventType
  RawMessage : Bytes
  deriving DecidableEq, Repr

/-- The nine event categories; each names one category field of `dto.DefaultHandlers`. -/
inductive Category where
  | Guild
  | GuildMember
  | Channel
  | Message
  | MessageReaction
  | ATMessage
  | DirectMessage
  | Audio
  | MessageAudit
  deriving DecidableEq, Repr

/-- The declarations of package dto that the translated functions use and that are declared
in files other than the translated ones: the opcode constant, `EventToIntent` and the three
intent constants of `TestRegisterHandlers`.  They are parameters of the embedding. -/
structure DtoDecls where
  WSDispatchEvent : OPCode
  EventToIntent : List EventType → Intent
  IntentGuilds : Intent
  IntentGuildMessages : Intent
  IntentAudio : Intent

section Registry

/- The payload structures: `T .Guild` is `dto.WSGuildData`, `T .GuildMember` is
`dto.WSGuildMemberData`, `T .Channel` is `dto.WSChannelData`, `T .Message` is
`dto.WSMessageData`, `T .MessageReaction` is `dto.WSMessageReactionData`, `T .ATMessage` is
`dto.WSATMessageData`, `T .DirectMessage` is `dto.WSDirectMessageData`, `T .Audio` is
`dto.WSAudioData`, `T .MessageAudit` is `dto.WSMessageAuditData`; `R` is
`dto.WSReadyData`. -/
variable (R : Type) (T : Category → Type)

/-- The nine category handler types, `func(event *WSPayload, data *WSxxxData) error`. -/
abbrev EventHandler (c : Category) : Type := Option (WSPayload → T c → Option Error)

/-- Type `dto.ReadyHandler`. -/
abbrev ReadyHandler : Type := Option (WSPayload → R → Unit)

/-- Type `dto.ErrorNotifyHandler`. -/
abbrev ErrorNotifyHandler : Type := Option (Error → Unit)

/-- Type `dto.PlainEventHandler`. -/
abbrev PlainEventHandler : Type := Option (WSPayload → Bytes → Option Error)

/-- The struct held by the variable `dto.DefaultHandlers`. -/
structure DefaultHandlers where
  Ready : ReadyHandler R
  ErrorNotify : ErrorNotifyHandler
  Plain : PlainEventHandler
  Guild : EventHandler T .Guild
  GuildMember : EventHandler T .GuildMember
  Channel : EventHandler T .Channel
  Message : EventHandler T .Message
  MessageReaction : EventHandler T .MessageReaction
  ATMessage : EventHandler T .ATMessage
  DirectMessage : EventHandler T .DirectMessage
  Audio : EventHandler T .Audio
  MessageAudit : EventHandler T .MessageAudit

/-- The zero value of `dto.DefaultHandlers`: every slot nil. -/
def DefaultHandlers.zero : DefaultHandlers R T :=
  { Ready := none, ErrorNotify := none, Plain := none, Guild := none, GuildMember := none,
    Channel := none, Message := none, MessageReaction := none, ATMessage := none,
    DirectMessage := none, Audio := none, MessageAudit := none }

/-- An `interface{}` value as the type switches of `handler.go` see it: a value of one of the
twelve handler types (possibly the nil func of that type), or a value of any other dynamic
type (also the nil interface), which only the `default` branches match. -/
inductive Handler where
  | ReadyHandler (handle : ReadyHandler R)
  | ErrorNotifyHandler (handle : ErrorNotifyHandler)
  | PlainEventHandler (handle : PlainEventHandler)
  | GuildEventHandler (handle : EventHandler T .Guild)
  | GuildMemberEventHandler (handle : EventHandler T .GuildMember)
  | ChannelEventHandler (handle : EventHandler T .Channel)
  | MessageEventHandler (handle : EventHandler T .Message)
  | MessageReactionEventHandler (handle : EventHandler T .MessageReaction)
  | ATMessageEventHandler (handle : EventHandler T .ATMessage)
  | DirectMessageEventHandler (handle : EventHandler T .DirectMessage)
  | AudioEventHandler (handle : EventHandler T .Audio)
  | MessageAuditEventHandler (handle : EventHandler T .MessageAudit)
  | unrecognized

end Registry

/-! ## Package websocket: `handler.go` -/

section Register

variable {R : Type} {T : Category → Type}

open EventType

/-- The `for` loop of `RegisterHandlers` (handler.go:10-26), from running bitmask `i`. -/
def RegisterHandlers.loop (d : DtoDecls) :
    Intent → List (Handler R T) → DefaultHandlers R T → Intent × DefaultHandlers R T
  | i, [], reg => (i, reg)
  | i, h :: rest, reg =>
    match h with
    | .ReadyHandler handle =>
        RegisterHandlers.loop d i rest { reg with Ready := handle }
    | .ErrorNotifyHandler handle =>
        RegisterHandlers.loop d i rest { reg with ErrorNotify := handle }
    | .PlainEventHandler handle =>
        RegisterHandlers.loop d i rest { reg with Plain := handle }
    | .AudioEventHandler handle =>
        RegisterHandlers.loop d
          (Int.lor i (d.EventToIntent
            [EventAudioStart, EventAudioFinish, EventAudioOnMic, EventAudioOffMic]))
          rest { reg with Audio := handle }
    | _ => RegisterHandlers.loop d i rest reg

/-- Function `registerRelationHandlers` (handler.go:34-50). -/
def registerRelationHandlers (d : DtoDecls) :
    Intent → List (Handler R T) → DefaultHandlers R T → Intent × DefaultHandlers R T
  | i, [], reg => (i, reg)
  | i, h :: rest, reg =>
    match h with
    | .GuildEventHandler handle =>
        registerRelationHandlers d
          (Int.lor i (d.EventToIntent [EventGuildCreate, EventGuildDelete, EventGuildUpdate]))
          rest { reg with Guild := handle }
    | .GuildMemberEventHandler handle =>
        registerRelationHandlers d
          (Int.lor i (d.EventToIntent
            [EventGuildMemberAdd, EventGuildMemberRemove, EventGuildMemberUpdate]))
          rest { reg with GuildMember := handle }
    | .ChannelEventHandler handle =>
        registerRelationHandlers d
          (Int.lor i (d.EventToIntent
            [EventChannelCreate, EventChannelDelete, EventChannelUpdate]))
          rest { reg with Channel := handle }
    | _ => registerRelationHandlers d i rest reg

/-- Function `registerMessageHandlers` (handler.go:53-75). -/
def registerMessageHandlers (d : DtoDecls) :
    Intent → List (Handler R T) → DefaultHandlers R T → Intent × DefaultHandlers R T
  | i, [], reg => (i, reg)
  | i, h :: rest, reg =>
    match h with
    | .MessageEventHandler handle =>
        registerMessageHandlers d (Int.lor i (d.EventToIntent [EventMessageCreate]))
          rest { reg with Message := handle }
    | .ATMessageEventHandler handle =>
        registerMessageHandlers d (Int.lor i (d.EventToIntent [EventAtMessageCreate]))
          rest { reg with ATMessage := handle }
    | .DirectMessageEventHandler handle =>
        registerMessageHandlers d (Int.lor i (d.EventToIntent [EventDirectMessageCreate]))
          rest { reg with DirectMessage := handle }
    | .MessageReactionEventHandler handle =>
        registerMessageHandlers d
          (Int.lor i (d.EventToIntent [EventMessageReactionAdd, EventMessageReactionRemove]))
          rest { reg with MessageReaction := handle }
    | .MessageAuditEventHandler handle =>
        registerMessageHandlers d
          (Int.lor i (d.EventToIntent [EventMessageAuditPass, EventMessageAuditReject]))
          rest { reg with MessageAudit := handle }
    | _ => registerMessageHandlers d i rest reg

/-- Function `RegisterHandlers` (handler.go:8-31).  `reg` is `dto.DefaultHandlers` before the
call; the result is the returned intent and `dto.DefaultHandlers` after the call. -/
def RegisterHandlers (d : DtoDecls) (handlers : List (Handler R T))
    (reg : DefaultHandlers R T) : Intent × DefaultHandlers R T :=
  let r0 := RegisterHandlers.loop d 0 handlers reg
  let r1 := registerRelationHandlers d r0.1 handlers r0.2
  let i := Int.lor r0.1 r1.1
  let r2 := registerMessageHandlers d i handlers r1.2
  (Int.lor i r2.1, r2.2)

end Register

/-! ## Reading the registration off a handler list -/

section Shapes

variable {R : Type} {T : Category → Type}

open EventType

/-- The category whose `case` a handler value matches in `registerRelationHandlers`,
`registerMessageHandlers` or the audio case of `RegisterHandlers`; `none` for ready,
error-notify, plain and unrecognized values. -/
def Handler.category : Handler R T → Option Category
  | .GuildEventHandler _ => some .Guild
  | .GuildMemberEventHandler _ => some .GuildMember
  | .ChannelEventHandler _ => some .Channel
  | .MessageEventHandler _ => some .Message
  | .MessageReactionEventHandler _ => some .MessageReaction
  | .ATMessageEventHandler _ => some .ATMessage
  | .DirectMessageEventHandler _ => some .DirectMessage
  | .AudioEventHandler _ => some .Audio
  | .MessageAuditEventHandler _ => some .MessageAudit
  | _ => none

/-- The fixed event set of a category: the arguments of its `dto.EventToIntent` call in
handler.go, in the order written there. -/
def categoryEvents : Category → List EventType
  | .Guild => [EventGuildCreate, EventGuildDelete, EventGuildUpdate]
  | .GuildMember => [EventGuildMemberAdd, EventGuildMemberRemove, EventGuildMemberUpdate]
  | .Channel => [EventChannelCreate, EventChannelDelete, EventChannelUpdate]
  | .Message => [EventMessageCreate]
  | .ATMessage => [EventAtMessageCreate]
  | .DirectMessage => [EventDirectMessageCreate]
  | .MessageReaction => [EventMessageReactionAdd, EventMessageReactionRemove]
  | .MessageAudit => [EventMessageAuditPass, EventMessageAuditReject]
  | .Audio => [EventAudioStart, EventAudioFinish, EventAudioOnMic, EventAudioOffMic]

/-- Whether a handler of category `c` occurs at least once in the list. -/
def occurs (c : Category) (handlers : List (Handler R T)) : Bool :=
  handlers.any (fun h => h.category == some c)

/-- The bit group a category contributes: its `EventToIntent` value when a handler of the
category occurs in the list, no bits otherwise. -/
def categoryBits (d : DtoDecls) (handlers : List (Handler R T)) (c : Category) : Intent :=
  if occurs c handlers then d.EventToIntent (categoryEvents c) else 0

/-- The nine categories. -/
def Category.all : List Category :=
  [.Guild, .GuildMember, .Channel, .Message, .ATMessage, .DirectMessage, .MessageReaction,
    .MessageAudit, .Audio]

/-- The bitmask as the specification words it: the bitwise OR, over the categories, of the
bit group of each category that has a registered handler. -/
def unionOfRegistered (d : DtoDecls) (handlers : List (Handler R T)) : Intent :=
  Category.all.foldr (fun c acc => Int.lor (categoryBits d handlers c) acc) 0

end Shapes

/-! ## Package websocket/client: `event.go` -/

section Dispatch

variable {R : Type} {T : Category → Type}

open EventType

/-- A call that the dispatch code makes to a registered callback, with its arguments:
`Plain` is a call of `dto.DefaultHandlers.Plain`, `category c` a call of the slot of
category `c`. -/
inductive Call (T : Category → Type) where
  | Plain (event : WSPayload) (message : Bytes)
  | category (c : Category) (event : WSPayload) (data : T c)

/-- The two library functions that `parseData` calls.  `gjsonGet message path` is
`[]byte(gjson.Get(string(message), path).String())`; `jsonUnmarshal c bytes` is
`json.Unmarshal(bytes, target)` for a `target` pointing to a fresh structure of type `T c`:
the decode error, or the structure that was filled in. -/
structure JsonLib (T : Category → Type) where
  gjsonGet : Bytes → String → Bytes
  jsonUnmarshal : (c : Category) → Bytes → Except Error (T c)

/-- Function `parseData` (event.go:144-147), for a target of type `T c`. -/
def parseData (lib : JsonLib T) (c : Category) (message : Bytes) : Except Error (T c) :=
  let data := lib.gjsonGet message "d"
  lib.jsonUnmarshal c data

/-- Function `guildHandler` (event.go:56-65). -/
def guildHandler (lib : JsonLib T) (reg : DefaultHandlers R T) (event : WSPayload)
    (message : Bytes) : Option Error × List (Call T) :=
  match parseData lib .Guild message with
  | .error err => (some err, [])
  | .ok data =>
    match reg.Guild with
    | some handle => (handle event data, [Call.category .Guild event data])
    | none => (none, [])

/-- Function `channelHandler` (event.go:67-76). -/
def channelHandler (lib : JsonLib T) (reg : DefaultHandlers R T) (event : WSPayload)
    (message : Bytes) : Option Error × List (Call T) :=
  match parseData lib .Channel message with
  | .error err => (some err, [])
  | .ok data =>
    match reg.Channel with
    | some handle => (handle event data, [Call.category .Channel event data])
    | none => (none, [])

/-- Function `guildMemberHandler` (event.go:78-87). -/
def guildMemberHandler (lib : JsonLib T) (reg : DefaultHandlers R T) (event : WSPayload)
    (message : Bytes) : Option Error × List (Call T) :=
  match parseData lib .GuildMember message with
  | .error err => (some err, [])
  | .ok data =>
    match reg.GuildMember with
    | some handle => (handle event data, [Call.category .GuildMember event data])
    | none => (none, [])

/-- Function `messageHandler` (event.go:89-98). -/
def messageHandler (lib : JsonLib T) (reg : DefaultHandlers R T) (event : WSPayload)
    (message : Bytes) : Option Error × List (Call T) :=
  match parseData lib .Message message with
  | .error err => (some err, [])
  | .ok data =>
    match reg.Message with
    | some handle => (handle event data, [Call.category .Message event data])
    | none => (none, [])

/-- Function `messageReactionHandler` (event.go:100-109). -/
def messageReactionHandler (lib : JsonLib T) (reg : DefaultHandlers R T) (event : WSPayload)
    (message : Bytes) : Option Error × List (Call T) :=
  match parseData lib .MessageReaction message with
  | .error err => (some err, [])
  | .ok data =>
    match reg.MessageReaction with
    | some handle => (handle event data, [Call.category .MessageReaction event data])
    | none => (none, [])

/-- Function `atMessageHandler` (event.go:111-120). -/
def atMessageHandler (lib : JsonLib T) (reg : DefaultHandlers R T) (event : WSPayload)
    (message : Bytes) : Option Error × List (Call T) :=
  match parseData lib .ATMessage message with
  | .error err => (some err, [])
  | .ok data =>
    match reg.ATMessage with
    | some handle => (handle event data, [Call.category .ATMessage event data])
    | none => (none, [])

/-- Function `directMessageHandler` (event.go:122-131). -/
def directMessageHandler (lib : JsonLib T) (reg : DefaultHandlers R T) (event : WSPayload)
    (message : Bytes) : Option Error × List (Call T) :=
  match parseData lib .DirectMessage message with
  | .error err => (some err, [])
  | .ok data =>
    match reg.DirectMessage with
    | some handle => (handle event data, [Call.category .DirectMessage event data])
    | none => (none, [])

/-- Function `audioHandler` (event.go:133-142). -/
def audioHandler (lib : JsonLib T) (reg : DefaultHandlers R T) (event : WSPayload)
    (message : Bytes) : Option Error × List (Call T) :=
  match parseData lib .Audio message with
  | .error err => (some err, [])
  | .ok data =>
    match reg.Audio with
    | some handle => (handle event data, [Call.category .Audio event data])
    | none => (none, [])

/-- Function `messageAuditHandler` (event.go:149-158). -/
def messageAuditHandler (lib : JsonLib T) (reg : DefaultHandlers R T) (event : WSPayload)
    (message : Bytes) : Option Error × List (Call T) :=
  match parseData lib .MessageAudit message with
  | .error err => (some err, [])
  | .ok data =>
    match reg.MessageAudit with
    | some handle => (handle event data, [Call.category .MessageAudit event data])
    | none => (none, [])

/-- The values of type `eventParseFunc` that occur in `eventParseFuncMap`: the nine dispatch
functions, by name. -/
inductive eventParseFunc where
  | guildHandler
  | channelHandler
  | guildMemberHandler
  | messageHandler
  | messageReactionHandler
  | atMessageHandler
  | directMessageHandler
  | audioHandler
  | messageAuditHandler
  deriving DecidableEq, Repr

/-- Calling a value of type `eventParseFunc`: `h(event, message)`. -/
def eventParseFunc.call (lib : JsonLib T) (reg : DefaultHandlers R T) :
    eventParseFunc → WSPayload → Bytes → Option Error × List (Call T)
  | .guildHandler => Botgo.guildHandler lib reg
  | .channelHandler => Botgo.channelHandler lib reg
  | .guildMemberHandler => Botgo.guildMemberHandler lib reg
  | .messageHandler => Botgo.messageHandler lib reg
  | .messageReactionHandler => Botgo.messageReactionHandler lib reg
  | .atMessageHandler => Botgo.atMessageHandler lib reg
  | .directMessageHandler => Botgo.directMessageHandler lib reg
  | .audioHandler => Botgo.audioHandler lib reg
  | .messageAuditHandler => Botgo.messageAuditHandler lib reg

/-- The map `eventParseFuncMap` (event.go:10-40): the lookup
`eventParseFuncMap[op][t]`, `none` when the key is absent (`ok == false`). -/
def eventParseFuncMap (d : DtoDecls) (op : OPCode) (t : EventType) : Option eventParseFunc :=
  if op = d.WSDispatchEvent then
    match t with
    | EventGuildCreate => some .guildHandler
    | EventGuildUpdate => some .guildHandler
    | EventGuildDelete => some .guildHandler
    | EventChannelCreate => some .channelHandler
    | EventChannelUpdate => some .channelHandler
    | EventChannelDelete => some .channelHandler
    | EventGuildMemberAdd => some .guildMemberHandler
    | EventGuildMemberUpdate => some .guildMemberHandler
    | EventGuildMemberRemove => some .guildMemberHandler
    | EventMessageCreate => some .messageHandler
    | EventMessageReactionAdd => some .messageReactionHandler
    | EventMessageReactionRemove => some .messageReactionHandler
    | EventAtMessageCreate => some .atMessageHandler
    | EventDirectMessageCreate => some .directMessageHandler
    | EventAudioStart => some .audioHandler
    | EventAudioFinish => some .audioHandler
    | EventAudioOnMic => some .audioHandler
    | EventAudioOffMic => some .audioHandler
    | EventMessageAuditPass => some .messageAuditHandler
    | EventMessageAuditReject => some .messageAuditHandler
    | other _ => none
  else none

/-- Function `parseAndHandle` (event.go:44-54): the returned error and the callbacks that
were called. -/
def parseAndHandle (d : DtoDecls) (lib : JsonLib T) (reg : DefaultHandlers R T)
    (event : WSPayload) : Option Error × List (Call T) :=
  match eventParseFuncMap d event.OPCode event.Type_ with
  | some h => h.call lib reg event event.RawMessage
  | none =>
    match reg.Plain with
    | some plain => (plain event event.RawMessage, [Call.Plain event event.RawMessage])
    | none => (none, [])

/-- The category of a dispatch function: the payload structure it decodes into and the
registry slot it reads. -/
def eventParseFunc.category : eventParseFunc → Category
  | .guildHandler => .Guild
  | .channelHandler => .Channel
  | .guildMemberHandler => .GuildMember
  | .messageHandler => .Message
  | .messageReactionHandler => .MessageReaction
  | .atMessageHandler => .ATMessage
  | .directMessageHandler => .DirectMessage
  | .audioHandler => .Audio
  | .messageAuditHandler => .MessageAudit

/-- The registry slot of a category: the field of `dto.DefaultHandlers` of that name. -/
def DefaultHandlers.slot (reg : DefaultHandlers R T) : (c : Category) → EventHandler T c
  | .Guild => reg.Guild
  | .GuildMember => reg.GuildMember
  | .Channel => reg.Channel
  | .Message => reg.Message
  | .MessageReaction => reg.MessageReaction
  | .ATMessage => reg.ATMessage
  | .DirectMessage => reg.DirectMessage
  | .Audio => reg.Audio
  | .MessageAudit => reg.MessageAudit

end Dispatch

/-! ## Registry slots by callback shape -/

section Slots

variable {R : Type} {T : Category → Type}

/-- The twelve recognized callback shapes: one per field of `dto.DefaultHandlers`. -/
inductive Shape where
  | Ready
  | ErrorNotify
  | Plain
  | category (c : Category)
  deriving DecidableEq, Repr

/-- The shape of a handler value: the `case` it matches; `none` for a value that only the
`default` branches match. -/
def Handler.shape : Handler R T → Option Shape
  | .ReadyHandler _ => some .Ready
  | .ErrorNotifyHandler _ => some .ErrorNotify
  | .PlainEventHandler _ => some .Plain
  | .unrecognized => none
  | h => h.category.map Shape.category

/-- The content of the registry slot of a shape, as a handler value of that shape. -/
def DefaultHandlers.slotValue (reg : DefaultHandlers R T) : Shape → Handler R T
  | .Ready => .ReadyHandler reg.Ready
  | .ErrorNotify => .ErrorNotifyHandler reg.ErrorNotify
  | .Plain => .PlainEventHandler reg.Plain
  | .category .Guild => .GuildEventHandler reg.Guild
  | .category .GuildMember => .GuildMemberEventHandler reg.GuildMember
  | .category .Channel => .ChannelEventHandler reg.Channel
  | .category .Message => .MessageEventHandler reg.Message
  | .category .MessageReaction => .MessageReactionEventHandler reg.MessageReaction
  | .category .ATMessage => .ATMessageEventHandler reg.ATMessage
  | .category .DirectMessage => .DirectMessageEventHandler reg.DirectMessage
  | .category .Audio => .AudioEventHandler reg.Audio
  | .category .MessageAudit => .MessageAuditEventHandler reg.MessageAudit

/-- The last handler of shape `s` in a list, if there is one. -/
def lastOfShape (s : Shape) : List (Handler R T) → Option (Handler R T)
  | [] => none
  | h :: rest =>
    match lastOfShape s rest with
    | some h2 => some h2
    | none => if h.shape = some s then some h else none

/-- The handler value of the handler type of a category. -/
def Handler.ofCategory : (c : Category) → EventHandler T c → Handler R T
  | .Guild, handle => .GuildEventHandler handle
  | .GuildMember, handle => .GuildMemberEventHandler handle
  | .Channel, handle => .ChannelEventHandler handle
  | .Message, handle => .MessageEventHandler handle
  | .MessageReaction, handle => .MessageReactionEventHandler handle
  | .ATMessage, handle => .ATMessageEventHandler handle
  | .DirectMessage, handle => .DirectMessageEventHandler handle
  | .Audio, handle => .AudioEventHandler handle
  | .MessageAudit, handle => .MessageAuditEventHandler handle

end Slots

/-! ## Package sessions/local: `local.go` -/

/-- Type `dto.ShardConfig`. -/
structure ShardConfig where
  ShardID : Nat
  ShardCount : Nat
  deriving DecidableEq, Repr

/-- Type `dto.Session`, with the fields that local.go reads or writes.  `Token` stands for
the `token.Token` value and `Handlers` for the `*dto.EventParse` pointer. -/
structure Session where
  ID : String
  URL : String
  Token : String
  Handlers : Nat
  LastSeq : Nat
  Shards : ShardConfig
  deriving DecidableEq, Repr

/-- Type `dto.SessionStartLimit`. -/
structure SessionStartLimit where
  Total : Nat
  Remaining : Nat
  ResetAfter : Nat
  MaxConcurrency : Nat
  deriving DecidableEq, Repr

/-- Type `dto.WebsocketAP`. -/
structure WebsocketAP where
  URL : String
  Shards : Nat
  SessionStartLimit : SessionStartLimit
  deriving DecidableEq, Repr

/-- The functions of package `sessions/manager` that local.go calls; they are declared
outside the translated files and are parameters of the embedding. -/
structure ManagerDecls where
  CheckSessionLimit : WebsocketAP → Option Error
  CanNotResume : Error → Bool
  CanNotIdentify : Error → Bool

/-- A Go `chan struct{}` on which nothing is ever sent: nil, made, or closed. -/
inductive SignalChan where
  | nil
  | made
  | closed
  deriving DecidableEq, Repr

/-- The Go builtin `close` on such a channel; `.error` is the run-time panic. -/
def SignalChan.close : SignalChan → Except String SignalChan
  | .nil => .error "close of nil channel"
  | .closed => .error "close of closed channel"
  | .made => .ok .closed

/-- A buffered `chan dto.Session`: its capacity and the sessions in its buffer, oldest
first. -/
structure SessionChan where
  capacity : Nat
  buffer : List Session
  deriving DecidableEq, Repr

/-- Type `ChanManager` (local.go:22-26); `sessionChan = none` is the nil channel. -/
structure ChanManager where
  isStop : Bool
  stop : SignalChan
  sessionChan : Option SessionChan
  deriving DecidableEq, Repr

/-- Function `New` (local.go:17-19): the zero `ChanManager`. -/
def New : ChanManager :=
  { isStop := false, stop := .nil, sessionChan := none }

/-- The seeding loop of `Start` (local.go:43-55), from shard index `i`, with `n` iterations
left: each iteration sends one fresh session on `sessionChan`. -/
def ChanManager.Start.seed (apInfo : WebsocketAP) (token : String) (handlers : Nat) :
    Nat → Nat → List Session → List Session
  | 0, _, buffer => buffer
  | n + 1, i, buffer =>
    let session : Session :=
      { ID := "", URL := apInfo.URL, Token := token, Handlers := handlers, LastSeq := 0,
        Shards := { ShardID := i, ShardCount := apInfo.Shards } }
    ChanManager.Start.seed apInfo token handlers n (i + 1) (buffer ++ [session])

/-- The part of `Start` before its `for`/`select` loop (local.go:29-55): the session-limit
check, the three assignments to the manager and the seeding loop.  `.error` is the error
that `Start` returns without touching the manager. -/
def ChanManager.Start.init (m : ManagerDecls) (_l : ChanManager) (apInfo : WebsocketAP)
    (token : String) (handlers : Nat) : Except Error ChanManager :=
  match m.CheckSessionLimit apInfo with
  | some err => .error err
  | none =>
    .ok { isStop := false, stop := .made,
          sessionChan := some
            { capacity := apInfo.Shards,
              buffer := ChanManager.Start.seed apInfo token handlers apInfo.Shards 0 [] } }

/-- The `case <-ctx.Done()` branch of the loop of `Start` (local.go:62-67); `.error` is a
run-time panic. -/
def ChanManager.Start.onDone (l : ChanManager) : Except String ChanManager :=
  if !l.isStop then
    match l.stop.close with
    | .error p => .error p
    | .ok c => .ok { l with stop := c, isStop := true }
  else .ok l

/-- Method `Stop` (local.go:73-77); `.error` is a run-time panic. -/
def ChanManager.Stop (l : ChanManager) : Except String ChanManager :=
  if !l.isStop then
    match l.stop.close with
    | .error p => .error p
    | .ok c => .ok { l with stop := c }
  else .ok l

/-- Sequential calls of `Stop`, `n` of them; a panic ends the sequence. -/
def ChanManager.stopTimes : Nat → ChanManager → Except String ChanManager
  | 0, l => .ok l
  | n + 1, l =>
    match l.Stop with
    | .error p => .error p
    | .ok l2 => ChanManager.stopTimes n l2

/-- What one run of a websocket client does, as far as `newConnect` observes it: for each
method the error it returns (`.ok none` is a nil error) or the value it panics with
(`.error`), and the session that `Session()` points to once `Listening` has returned. -/
structure Client where
  Connect : Except String (Option Error)
  Resume : Except String (Option Error)
  Identify : Except String (Option Error)
  Listening : Except String (Option Error)
  Session : Session

/-- What one run of `newConnect` does to the rest of the program: the sessions it sends on
`l.sessionChan`, in order, and the calls of `websocket.PanicHandler` it makes. -/
structure TaskEffects where
  sent : List Session
  panicHandled : List (String × Session)
  deriving DecidableEq, Repr

/-- The body of `newConnect` (local.go:91-137) without the deferred recover: the sessions
sent on `l.sessionChan`, and the way the body ends, `.ok ()` for a return and `.error v` for
a panic with value `v`. -/
def ChanManager.newConnect.body (m : ManagerDecls) (ClientImplNew : Session → Client)
    (session : Session) : List Session × Except String Unit :=
  let wsClient := ClientImplNew session
  match wsClient.Connect with
  | .error v => ([], .error v)
  | .ok (some _) => ([session], .ok ())
  | .ok none =>
    match (if session.ID ≠ "" then wsClient.Resume else wsClient.Identify) with
    | .error v => ([], .error v)
    | .ok (some _) => ([], .ok ())
    | .ok none =>
      match wsClient.Listening with
      | .error v => ([], .error v)
      | .ok none => ([], .ok ())
      | .ok (some err) =>
        let currentSession := wsClient.Session
        let currentSession :=
          if m.CanNotResume err then { currentSession with ID := "", LastSeq := 0 }
          else currentSession
        if m.CanNotIdentify err then
          ([], .error ("can not identify because server return " ++ err ++ ", so process exit"))
        else ([currentSession], .ok ())

/-- Modelled from the spec: `websocket.PanicHandler`, which is declared outside the
translated files, is the diagnostic hook that is given the recovered error and the session,
logs them and returns.  The value is the record of the call. -/
def PanicHandler (err : String) (session : Session) : String × Session :=
  (err, session)

/-- Method `newConnect` (local.go:83-138).  The deferred function (local.go:84-90) recovers
every panic of the body, calls `websocket.PanicHandler` and sends the `session` argument on
`l.sessionChan`.  The result is `.ok` when `newConnect` returns and `.error v` when a panic
with value `v` leaves it, which ends the process. -/
def ChanManager.newConnect (m : ManagerDecls) (ClientImplNew : Session → Client)
    (session : Session) : Except String TaskEffects :=
  match ChanManager.newConnect.body m ClientImplNew session with
  | (sent, .ok ()) => .ok { sent := sent, panicHandled := [] }
  | (sent, .error v) =>
      .ok { sent := sent ++ [session], panicHandled := [PanicHandler v session] }

/-! ## The manager loop and the connection tasks as a transition system -/

/-- A receive from the session channel (`<-l.sessionChan`): the oldest session and the
channel without it; `none` when the buffer is empty and the receive blocks. -/
def SessionChan.recv (ch : SessionChan) : Option (Session × SessionChan) :=
  match ch.buffer with
  | [] => none
  | session :: rest => some (session, { ch with buffer := rest })

/-- A send on the session channel (`l.sessionChan <- session`): the channel with the session
at the end of its buffer; `none` when the buffer is full and the send blocks. -/
def SessionChan.send (ch : SessionChan) (session : Session) : Option SessionChan :=
  if ch.buffer.length < ch.capacity then some { ch with buffer := ch.buffer ++ [session] }
  else none

/-- The sends of one connection task, in order; `none` when one of them blocks. -/
def SessionChan.sendAll (ch : SessionChan) : List Session → Option SessionChan
  | [] => some ch
  | session :: rest =>
    match ch.send session with
    | some ch2 => ch2.sendAll rest
    | none => none

/-- Where the `for`/`select` loop of `Start` (local.go:57-69) stands: at the `select`; in
`time.Sleep` with the session it has just received, before `go l.newConnect(ctx, session)`;
or left through `return nil`. -/
inductive LoopState where
  | selecting
  | sleeping (session : Session)
  | returned
  deriving DecidableEq, Repr

/-- A state of the manager once `Start` has initialised it: the manager and the place of
its loop; `working`, with the session it was launched with, each connection task that has
been launched and has not yet reached its send on `sessionChan` (local.go:88, 94, 135) or,
on a path without a send, its return; and `leaving`, the number of connection tasks that
are past that point and have not yet returned.  The running connection tasks are those of
both kinds. -/
structure System where
  l : ChanManager
  loop : LoopState
  working : List Session
  leaving : Nat
  deriving DecidableEq, Repr

/-- The state in which the loop of `Start` is entered. -/
def System.start (l : ChanManager) : System :=
  { l := l, loop := .selecting, working := [], leaving := 0 }

/-- The moves of the system.  `receive` is `case session := <-l.sessionChan`; `launch` is
`go l.newConnect(ctx, session)` after the sleep; `done` is `case <-ctx.Done()`;
`taskRun i ClientImplNew` lets the `i`-th working connection task run `newConnect`, against
a client that behaves as `ClientImplNew` says, up to and including its send on
`sessionChan`, or up to its return on a path without a send; `taskReturn` lets a connection
task that is past that point return, which ends it; `stop` is a call of `Stop`. -/
inductive Action where
  | receive
  | launch
  | done
  | taskRun (i : Nat) (ClientImplNew : Session → Client)
  | taskReturn
  | stop

/-- One move.  `none` when the move cannot be made in this state: the receive or a send of
the task blocks, the loop is elsewhere, there is no such task, or the move panics and the
process ends.  The send of a connection task and its return are two moves, so that the loop
and the other tasks can move in between. -/
def System.step (m : ManagerDecls) (sys : System) : Action → Option System
  | .receive =>
    match sys.loop, sys.l.sessionChan with
    | .selecting, some ch =>
      match ch.recv with
      | some (session, ch2) =>
          some { sys with l := { sys.l with sessionChan := some ch2 },
                          loop := .sleeping session }
      | none => none
    | _, _ => none
  | .launch =>
    match sys.loop with
    | .sleeping session =>
        some { sys with loop := .selecting, working := sys.working ++ [session] }
    | _ => none
  | .done =>
    match sys.loop with
    | .selecting =>
      match ChanManager.Start.onDone sys.l with
      | .ok l2 => some { sys with l := l2, loop := .returned }
      | .error _ => none
    | _ => none
  | .taskRun i ClientImplNew =>
    match sys.working[i]?, sys.l.sessionChan with
    | some session, some ch =>
      match ChanManager.newConnect m ClientImplNew session with
      | .ok effects =>
        match ch.sendAll effects.sent with
        | some ch2 =>
            some { sys with l := { sys.l with sessionChan := some ch2 },
                            working := sys.working.eraseIdx i,
                            leaving := sys.leaving + 1 }
        | none => none
      | .error _ => none
    | _, _ => none
  | .taskReturn =>
    match sys.leaving with
    | 0 => none
    | k + 1 => some { sys with leaving := k }
  | .stop =>
    match ChanManager.Stop sys.l with
    | .ok l2 => some { sys with l := l2 }
    | .error _ => none

/-- A sequence of moves, in any interleaving of the loop and the tasks. -/
def System.run (m : ManagerDecls) : System → List Action → Option System
  | sys, [] => some sys
  | sys, a :: rest =>
    match sys.step m a with
    | some sys2 => System.run m sys2 rest
    | none => none

/-- The number of sessions held in the work queue. -/
def System.queued (sys : System) : Nat :=
  match sys.l.sessionChan with
  | some ch => ch.buffer.length
  | none => 0

/-- The number of running connection tasks: those launched that have not yet returned. -/
def System.running (sys : System) : Nat :=
  sys.working.length + sys.leaving

/-- The number of sessions the loop holds between its receive and the launch: 0 or 1. -/
def LoopState.held : LoopState → Nat
  | .sleeping _ => 1
  | _ => 0

/-! ## Concrete instances, for evaluating the definitions -/

/-- An instance of the dto declarations: dispatch opcode 0, one bit per event group (the
guild and the channel events share the guilds bit), and `EventToIntent` the OR of the bits
of the listed events. -/
def exampleDto : DtoDecls where
  WSDispatchEvent := 0
  EventToIntent := fun events =>
    events.foldl (fun i e =>
      Int.lor i (match e with
        | .EventGuildCreate | .EventGuildUpdate | .EventGuildDelete => 1
        | .EventChannelCreate | .EventChannelUpdate | .EventChannelDelete => 1
        | .EventGuildMemberAdd | .EventGuildMemberUpdate | .EventGuildMemberRemove => 2
        | .EventMessageCreate => 512
        | .EventMessageReactionAdd | .EventMessageReactionRemove => 1024
        | .EventDirectMessageCreate => 4096
        | .EventMessageAuditPass | .EventMessageAuditReject => 134217728
        | .EventAudioStart | .EventAudioFinish | .EventAudioOnMic | .EventAudioOffMic =>
            536870912
        | .EventAtMessageCreate => 1073741824
        | _ => 0)) 0
  IntentGuilds := 1
  IntentGuildMessages := 512
  IntentAudio := 536870912

/-- Payload structures for the instances: every payload is a number, and 0 stands for the
zero value of the structure. -/
abbrev ExampleData : Category → Type := fun _ => Nat

/-- The bytes of the frame body `{"d":{}}`: an envelope whose payload `d` is the empty
JSON object. -/
def emptyObjectFrame : Bytes :=
  [123, 34, 100, 34, 58, 123, 125, 125]

/-- A decoder for the instances, which does what `gjson.Get` and `json.Unmarshal` do on the
two bodies used below.  From a body of the form `{"d":V}` it extracts `V`, and from a body
that does not start with `{"d":` the empty string.  The empty object `{}` decodes into the
zero value of every payload structure, the empty string fails with the error that
`encoding/json` gives for it, and every other payload is rejected. -/
def exampleLib : JsonLib ExampleData where
  gjsonGet := fun message path =>
    if path = "d" ∧ message.take 5 = [123, 34, 100, 34, 58] then (message.drop 5).dropLast
    else []
  jsonUnmarshal := fun _ bytes =>
    if bytes = [] then .error "unexpected end of JSON input"
    else if bytes = [123, 125] then .ok 0
    else .error "json: cannot unmarshal into the payload structure"

/-- An instance of the manager declarations: no session limit, error "4009" cannot resume
and error "4914" cannot identify. -/
def exampleManager : ManagerDecls where
  CheckSessionLimit := fun _ => none
  CanNotResume := fun err => err == "4009"
  CanNotIdentify := fun err => err == "4914"

/-- Access point information for one shard. -/
def exampleAP : WebsocketAP :=
  { URL := "wss://gateway", Shards := 1,
    SessionStartLimit :=
      { Total := 1000, Remaining := 1000, ResetAfter := 0, MaxConcurrency := 1 } }

/-- Access point information for two shards. -/
def exampleAP2 : WebsocketAP :=
  { URL := "wss://gateway", Shards := 2,
    SessionStartLimit :=
      { Total := 1000, Remaining := 1000, ResetAfter := 0, MaxConcurrency := 1 } }

/-- A client whose connection attempt fails. -/
def failingClient : Session → Client := fun s =>
  { Connect := .ok (some "dial failed"), Resume := .ok none, Identify := .ok none,
    Listening := .ok none, Session := s }

/-- A session as `Start` seeds it, for shard 0 of 1. -/
def exampleSession : Session :=
  { ID := "", URL := "wss://gateway", Token := "token", Handlers := 0, LastSeq := 0,
    Shards := { ShardID := 0, ShardCount := 1 } }

/-! ## Bitwise OR on `Int` -/

theorem testBit_max_left (m n : Nat) : m.testBit (max m n) = false :=
  Nat.testBit_lt_two_pow (lt_of_lt_of_le (Nat.lt_two_pow m)
    (Nat.pow_le_pow_right (by decide) (le_max_left m n)))

theorem testBit_max_right (m n : Nat) : n.testBit (max m n) = false :=
  Nat.testBit_lt_two_pow (lt_of_lt_of_le (Nat.lt_two_pow n)
    (Nat.pow_le_pow_right (by decide) (le_max_right m n)))

theorem int_testBit_zero (k : Nat) : Int.testBit 0 k = false := by
  show Nat.testBit 0 k = false
  simp

/-- Two integers with the same bits are equal. -/
theorem int_eq_of_testBit_eq : ∀ (m n : Int), (∀ k, m.testBit k = n.testBit k) → m = n
  | .ofNat m, .ofNat n, h => by
      congr 1
      exact Nat.eq_of_testBit_eq h
  | .ofNat m, .negSucc n, h => by
      exfalso
      have := h (max m n)
      simp [Int.testBit, testBit_max_left, testBit_max_right] at this
  | .negSucc m, .ofNat n, h => by
      exfalso
      have := h (max m n)
      simp [Int.testBit, testBit_max_left, testBit_max_right] at this
  | .negSucc m, .negSucc n, h => by
      congr 1
      apply Nat.eq_of_testBit_eq
      intro k
      have := h k
      simpa [Int.testBit] using this

theorem int_lor_assoc (a b c : Int) : Int.lor (Int.lor a b) c = Int.lor a (Int.lor b c) := by
  apply int_eq_of_testBit_eq
  intro k
  simp [Int.testBit_lor, Bool.or_assoc]

theorem int_lor_comm (a b : Int) : Int.lor a b = Int.lor b a := by
  apply int_eq_of_testBit_eq
  intro k
  simp [Int.testBit_lor, Bool.or_comm]

theorem int_lor_self (a : Int) : Int.lor a a = a := by
  apply int_eq_of_testBit_eq
  intro k
  simp [Int.testBit_lor]

theorem int_lor_zero (a : Int) : Int.lor a 0 = a := by
  apply int_eq_of_testBit_eq
  intro k
  simp [Int.testBit_lor, int_testBit_zero]

theorem int_zero_lor (a : Int) : Int.lor 0 a = a := by
  apply int_eq_of_testBit_eq
  intro k
  simp [Int.testBit_lor, int_testBit_zero]

/-- Masking with `c` keeps `c` as soon as one of the two operands of an OR contains `c`. -/
theorem int_land_lor_left (a b c : Int) (h : Int.land a c = c) :
    Int.land (Int.lor a b) c = c := by
  apply int_eq_of_testBit_eq
  intro k
  have hk := congrArg (fun x => Int.testBit x k) h
  simp only [Int.testBit_land] at hk
  simp only [Int.testBit_land, Int.testBit_lor]
  cases ha : a.testBit k <;> cases hb : b.testBit k <;> cases hc : c.testBit k <;>
    simp_all

theorem int_land_lor_right (a b c : Int) (h : Int.land b c = c) :
    Int.land (Int.lor a b) c = c := by
  rw [int_lor_comm]
  exact int_land_lor_left b a c h

theorem int_lor_left_comm (a b c : Int) :
    Int.lor a (Int.lor b c) = Int.lor b (Int.lor a c) := by
  rw [← int_lor_assoc, int_lor_comm a b, int_lor_assoc]

theorem int_lor_self_left (a b : Int) : Int.lor a (Int.lor a b) = Int.lor a b := by
  rw [← int_lor_assoc, int_lor_self]

/-! ## The bitmask returned by `RegisterHandlers` -/

section RegisterIntent

variable {R : Type} {T : Category → Type}

open EventType

theorem occurs_nil (c : Category) : occurs c ([] : List (Handler R T)) = false := rfl

theorem occurs_cons (c : Category) (h : Handler R T) (rest : List (Handler R T)) :
    occurs c (h :: rest) = (h.category == some c || occurs c rest) := rfl

/-- The bitmask after the loop of `RegisterHandlers`: the audio group joins the start
value when an audio handler occurs. -/
theorem loop_intent (d : DtoDecls) (hs : List (Handler R T)) :
    ∀ (i : Intent) (reg : DefaultHandlers R T),
      (RegisterHandlers.loop d i hs reg).1 = Int.lor i (categoryBits d hs .Audio) := by
  induction hs with
  | nil =>
    intro i reg
    simp [RegisterHandlers.loop, categoryBits, occurs_nil, int_lor_zero]
  | cons h rest ih =>
    intro i reg
    cases h <;>
      simp only [RegisterHandlers.loop, ih, categoryBits, occurs_cons, Handler.category,
        categoryEvents] <;>
      simp only [beq_self_eq_true, Bool.true_or, Bool.false_or, if_true, reduceCtorEq,
        Option.some.injEq, beq_iff_eq, Bool.or_eq_true, false_or, true_or]
    cases occurs Category.Audio rest <;> simp [int_lor_assoc, int_lor_self, int_lor_zero]

/-- The bitmask returned by `registerRelationHandlers`. -/
theorem relation_intent (d : DtoDecls) (hs : List (Handler R T)) :
    ∀ (i : Intent) (reg : DefaultHandlers R T),
      (registerRelationHandlers d i hs reg).1
        = Int.lor i (Int.lor (categoryBits d hs .Guild)
            (Int.lor (categoryBits d hs .GuildMember) (categoryBits d hs .Channel))) := by
  induction hs with
  | nil =>
    intro i reg
    simp [registerRelationHandlers, categoryBits, occurs_nil, int_lor_zero]
  | cons h rest ih =>
    intro i reg
    cases h <;>
      simp only [registerRelationHandlers, ih, categoryBits, occurs_cons, Handler.category,
        categoryEvents] <;>
      simp only [beq_self_eq_true, Bool.true_or, Bool.false_or, if_true, reduceCtorEq,
        Option.some.injEq, beq_iff_eq, Bool.or_eq_true, false_or, true_or] <;>
      split_ifs <;>
      simp only [int_lor_assoc, int_lor_comm, int_lor_left_comm, int_lor_self,
        int_lor_self_left, int_lor_zero, int_zero_lor]

set_option maxHeartbeats 1600000

/-- The bitmask returned by `registerMessageHandlers`. -/
theorem message_intent (d : DtoDecls) (hs : List (Handler R T)) :
    ∀ (i : Intent) (reg : DefaultHandlers R T),
      (registerMessageHandlers d i hs reg).1
        = Int.lor i (Int.lor (categoryBits d hs .Message)
            (Int.lor (categoryBits d hs .ATMessage)
              (Int.lor (categoryBits d hs .DirectMessage)
                (Int.lor (categoryBits d hs .MessageReaction)
                  (categoryBits d hs .MessageAudit))))) := by
  induction hs with
  | nil =>
    intro i reg
    simp [registerMessageHandlers, categoryBits, occurs_nil, int_lor_zero]
  | cons h rest ih =>
    intro i reg
    cases h <;>
      simp only [registerMessageHandlers, ih, categoryBits, occurs_cons, Handler.category,
        categoryEvents] <;>
      simp only [beq_self_eq_true, Bool.true_or, Bool.false_or, if_true, reduceCtorEq,
        Option.some.injEq, beq_iff_eq, Bool.or_eq_true, false_or, true_or] <;>
      split_ifs <;>
      simp only [int_lor_assoc, int_lor_comm, int_lor_left_comm, int_lor_self,
        int_lor_self_left, int_lor_zero, int_zero_lor]

set_option maxHeartbeats 200000

/-- The bitmask returned by `RegisterHandlers` is the union of the bit groups of the
registered categories. -/
theorem registerHandlers_intent (d : DtoDecls) (hs : List (Handler R T))
    (reg : DefaultHandlers R T) :
    (RegisterHandlers d hs reg).1 = unionOfRegistered d hs := by
  simp only [RegisterHandlers, loop_intent, relation_intent, message_intent,
    unionOfRegistered, Category.all, List.foldr]
  simp only [int_lor_assoc, int_lor_comm, int_lor_left_comm, int_lor_self,
    int_lor_self_left, int_lor_zero, int_zero_lor]

theorem occurs_of_mem (c : Category) (h : Handler R T) (hs : List (Handler R T))
    (hmem : h ∈ hs) (hc : h.category = some c) : occurs c hs = true := by
  simp only [occurs, List.any_eq_true]
  exact ⟨h, hmem, by simp [hc]⟩

theorem occurs_eq_false (c : Category) (hs : List (Handler R T))
    (hnone : ∀ h ∈ hs, h.category = none) : occurs c hs = false := by
  simp only [occurs, List.any_eq_false]
  intro h hmem
  simp [hnone h hmem]

/-- Claim C1.  For every handler list and every prior state of the registry, the intent
returned by `RegisterHandlers` is exactly the bitwise OR, over the nine categories, of
`EventToIntent` of the fixed event set of the category, for each category that occurs at
least once in the list.  Ready, error-notify, plain and unrecognized values contribute no bits: a
list without any category handler, the empty list included, returns 0, and a list holding
only an audio handler returns exactly
`EventToIntent(EventAudioStart, EventAudioFinish, EventAudioOnMic, EventAudioOffMic)`. -/
theorem RegisterHandlers_returns_union (d : DtoDecls) (hs : List (Handler R T))
    (reg : DefaultHandlers R T) :
    (RegisterHandlers d hs reg).1 = unionOfRegistered d hs
    ∧ ((∀ h ∈ hs, h.category = none) → (RegisterHandlers d hs reg).1 = 0)
    ∧ (RegisterHandlers d ([] : List (Handler R T)) reg).1 = 0
    ∧ (∀ handle : EventHandler T .Audio,
        (RegisterHandlers d [Handler.AudioEventHandler handle] reg).1
          = d.EventToIntent
              [EventAudioStart, EventAudioFinish, EventAudioOnMic, EventAudioOffMic]) := by
  refine ⟨registerHandlers_intent d hs reg, ?_, ?_, ?_⟩
  · intro hnone
    rw [registerHandlers_intent]
    simp only [unionOfRegistered, Category.all, List.foldr, categoryBits,
      occurs_eq_false _ hs hnone]
    simp [int_lor_zero]
  · rw [registerHandlers_intent]
    simp only [unionOfRegistered, Category.all, List.foldr, categoryBits, occurs_nil]
    simp [int_lor_zero]
  · intro handle
    rw [registerHandlers_intent]
    simp only [unionOfRegistered, Category.all, List.foldr, categoryBits, occurs_cons,
      occurs_nil, Handler.category, categoryEvents]
    simp [int_lor_zero, int_zero_lor]

/-- Evaluation of claim C1 on a list with a ready handler, two guild handlers, an
unrecognized value and an audio handler. -/
theorem RegisterHandlers_returns_union_witness :
    (RegisterHandlers exampleDto
        ([.ReadyHandler none, .GuildEventHandler none, .unrecognized,
          .GuildEventHandler (some (fun _ _ => none)), .AudioEventHandler none] :
          List (Handler Unit ExampleData))
        (DefaultHandlers.zero Unit ExampleData)).1 = 536870913
    ∧ unionOfRegistered exampleDto
        ([.ReadyHandler none, .GuildEventHandler none, .unrecognized,
          .GuildEventHandler (some (fun _ _ => none)), .AudioEventHandler none] :
          List (Handler Unit ExampleData)) = 536870913 := by
  have h := (RegisterHandlers_returns_union exampleDto
    ([.ReadyHandler none, .GuildEventHandler none, .unrecognized,
      .GuildEventHandler (some (fun _ _ => none)), .AudioEventHandler none] :
      List (Handler Unit ExampleData)) (DefaultHandlers.zero Unit ExampleData)).1
  have hu : unionOfRegistered exampleDto
      ([.ReadyHandler none, .GuildEventHandler none, .unrecognized,
        .GuildEventHandler (some (fun _ _ => none)), .AudioEventHandler none] :
        List (Handler Unit ExampleData)) = 536870913 := by decide
  exact ⟨h.trans hu, hu⟩

/-- Claim C2.  For every handler list that contains a guild handler, a message handler and
an audio handler, in any order and among any other values, the intent `i` returned by
`RegisterHandlers` satisfies `i & IntentGuildMessages = IntentGuildMessages`,
`i & IntentGuilds = IntentGuilds` and `i & IntentAudio = IntentAudio`.  The three intent
constants and `EventToIntent` are declared outside the translated files; what is used of
them is that the bit group of the guild, message and audio events contains `IntentGuilds`,
`IntentGuildMessages` and `IntentAudio`. -/
theorem RegisterHandlers_intent_test (d : DtoDecls) (hs : List (Handler R T))
    (reg : DefaultHandlers R T)
    (guild : EventHandler T .Guild) (message : EventHandler T .Message)
    (audio : EventHandler T .Audio)
    (hguild : Handler.GuildEventHandler guild ∈ hs)
    (hmessage : Handler.MessageEventHandler message ∈ hs)
    (haudio : Handler.AudioEventHandler audio ∈ hs)
    (hG : Int.land (d.EventToIntent [EventGuildCreate, EventGuildDelete, EventGuildUpdate])
            d.IntentGuilds = d.IntentGuilds)
    (hM : Int.land (d.EventToIntent [EventMessageCreate]) d.IntentGuildMessages
            = d.IntentGuildMessages)
    (hA : Int.land (d.EventToIntent
              [EventAudioStart, EventAudioFinish, EventAudioOnMic, EventAudioOffMic])
            d.IntentAudio = d.IntentAudio) :
    Int.land (RegisterHandlers d hs reg).1 d.IntentGuildMessages = d.IntentGuildMessages
    ∧ Int.land (RegisterHandlers d hs reg).1 d.IntentGuilds = d.IntentGuilds
    ∧ Int.land (RegisterHandlers d hs reg).1 d.IntentAudio = d.IntentAudio := by
  have og := occurs_of_mem .Guild _ hs hguild rfl
  have om := occurs_of_mem .Message _ hs hmessage rfl
  have oa := occurs_of_mem .Audio _ hs haudio rfl
  rw [registerHandlers_intent]
  simp only [unionOfRegistered, Category.all, List.foldr, categoryBits, og, om, oa, if_true,
    categoryEvents]
  refine ⟨?_, ?_, ?_⟩
  · exact int_land_lor_right _ _ _ (int_land_lor_right _ _ _ (int_land_lor_right _ _ _
      (int_land_lor_left _ _ _ hM)))
  · exact int_land_lor_left _ _ _ hG
  · exact int_land_lor_right _ _ _ (int_land_lor_right _ _ _ (int_land_lor_right _ _ _
      (int_land_lor_right _ _ _ (int_land_lor_right _ _ _ (int_land_lor_right _ _ _
      (int_land_lor_right _ _ _ (int_land_lor_right _ _ _
      (int_land_lor_left _ _ _ hA))))))))

/-- Claim C2 on the list of `TestRegisterHandlers`: guild, message and audio handlers that
return nil. -/
theorem RegisterHandlers_intent_test_witness :
    Int.land (RegisterHandlers exampleDto
        ([.GuildEventHandler (some (fun _ _ => none)),
          .MessageEventHandler (some (fun _ _ => none)),
          .AudioEventHandler (some (fun _ _ => none))] : List (Handler Unit ExampleData))
        (DefaultHandlers.zero Unit ExampleData)).1 exampleDto.IntentGuildMessages
      = exampleDto.IntentGuildMessages
    ∧ Int.land (RegisterHandlers exampleDto
        ([.GuildEventHandler (some (fun _ _ => none)),
          .MessageEventHandler (some (fun _ _ => none)),
          .AudioEventHandler (some (fun _ _ => none))] : List (Handler Unit ExampleData))
        (DefaultHandlers.zero Unit ExampleData)).1 exampleDto.IntentGuilds
      = exampleDto.IntentGuilds
    ∧ Int.land (RegisterHandlers exampleDto
        ([.GuildEventHandler (some (fun _ _ => none)),
          .MessageEventHandler (some (fun _ _ => none)),
          .AudioEventHandler (some (fun _ _ => none))] : List (Handler Unit ExampleData))
        (DefaultHandlers.zero Unit ExampleData)).1 exampleDto.IntentAudio
      = exampleDto.IntentAudio :=
  RegisterHandlers_intent_test exampleDto _ (DefaultHandlers.zero Unit ExampleData)
    (some (fun _ _ => none)) (some (fun _ _ => none)) (some (fun _ _ => none))
    (by simp) (by simp) (by simp) (by decide) (by decide) (by decide)

end RegisterIntent

/-! ## The registry after `RegisterHandlers` -/

section RegisterSlots

variable {R : Type} {T : Category → Type}

theorem lastOfShape_cons (s : Shape) (h : Handler R T) (rest : List (Handler R T)) :
    lastOfShape s (h :: rest)
      = match lastOfShape s rest with
        | some h2 => some h2
        | none => if h.shape = some s then some h else none := rfl

/-- The slots written by the loop of `RegisterHandlers` hold the last handler of their
shape; the other slots are untouched. -/
theorem loop_slot (d : DtoDecls) (s : Shape) (hs : List (Handler R T)) :
    ∀ (i : Intent) (reg : DefaultHandlers R T),
      (RegisterHandlers.loop d i hs reg).2.slotValue s
        = if s = .Ready ∨ s = .ErrorNotify ∨ s = .Plain ∨ s = .category .Audio then
            (lastOfShape s hs).getD (reg.slotValue s)
          else reg.slotValue s := by
  induction hs with
  | nil =>
    intro i reg
    simp [RegisterHandlers.loop, lastOfShape]
  | cons h rest ih =>
    intro i reg
    rw [lastOfShape_cons]
    rcases s with _ | _ | _ | c <;> try cases c
    all_goals
      cases h <;> simp only [RegisterHandlers.loop, ih] <;>
        cases lastOfShape _ rest <;>
        simp [Handler.shape, Handler.category, DefaultHandlers.slotValue]

/-- The slots written by `registerRelationHandlers` hold the last handler of their shape;
the other slots are untouched. -/
theorem relation_slot (d : DtoDecls) (s : Shape) (hs : List (Handler R T)) :
    ∀ (i : Intent) (reg : DefaultHandlers R T),
      (registerRelationHandlers d i hs reg).2.slotValue s
        = if s = .category .Guild ∨ s = .category .GuildMember ∨ s = .category .Channel then
            (lastOfShape s hs).getD (reg.slotValue s)
          else reg.slotValue s := by
  induction hs with
  | nil =>
    intro i reg
    simp [registerRelationHandlers, lastOfShape]
  | cons h rest ih =>
    intro i reg
    rw [lastOfShape_cons]
    rcases s with _ | _ | _ | c <;> try cases c
    all_goals
      cases h <;> simp only [registerRelationHandlers, ih] <;>
        cases lastOfShape _ rest <;>
        simp [Handler.shape, Handler.category, DefaultHandlers.slotValue]

/-- The slots written by `registerMessageHandlers` hold the last handler of their shape;
the other slots are untouched. -/
theorem message_slot (d : DtoDecls) (s : Shape) (hs : List (Handler R T)) :
    ∀ (i : Intent) (reg : DefaultHandlers R T),
      (registerMessageHandlers d i hs reg).2.slotValue s
        = if s = .category .Message ∨ s = .category .ATMessage
              ∨ s = .category .DirectMessage ∨ s = .category .MessageReaction
              ∨ s = .category .MessageAudit then
            (lastOfShape s hs).getD (reg.slotValue s)
          else reg.slotValue s := by
  induction hs with
  | nil =>
    intro i reg
    simp [registerMessageHandlers, lastOfShape]
  | cons h rest ih =>
    intro i reg
    rw [lastOfShape_cons]
    rcases s with _ | _ | _ | c <;> try cases c
    all_goals
      cases h <;> simp only [registerMessageHandlers, ih] <;>
        cases lastOfShape _ rest <;>
        simp [Handler.shape, Handler.category, DefaultHandlers.slotValue]

/-- After `RegisterHandlers`, every slot holds the last handler of its shape in the list,
and its prior content when the list has no handler of that shape. -/
theorem registerHandlers_slot (d : DtoDecls) (s : Shape) (hs : List (Handler R T))
    (reg : DefaultHandlers R T) :
    (RegisterHandlers d hs reg).2.slotValue s = (lastOfShape s hs).getD (reg.slotValue s) := by
  simp only [RegisterHandlers, message_slot, relation_slot, loop_slot]
  rcases s with _ | _ | _ | c <;> try cases c
  all_goals simp

theorem lastOfShape_append (s : Shape) (hs1 hs2 : List (Handler R T)) :
    lastOfShape s (hs1 ++ hs2)
      = match lastOfShape s hs2 with
        | some h => some h
        | none => lastOfShape s hs1 := by
  induction hs1 with
  | nil =>
    rw [List.nil_append]
    cases hl : lastOfShape s hs2 <;> rfl
  | cons x rest ih =>
    rw [List.cons_append, lastOfShape_cons, ih, lastOfShape_cons]
    cases lastOfShape s hs2 <;> rfl

/-- The last handler of a shape, when the position of that handler is given. -/
theorem lastOfShape_append_cons (s : Shape) (h : Handler R T) (post : List (Handler R T))
    (hshape : h.shape = some s) (hpost : ∀ x ∈ post, x.shape ≠ some s) :
    ∀ pre : List (Handler R T), lastOfShape s (pre ++ h :: post) = some h := by
  have hnone : lastOfShape s post = none := by
    induction post with
    | nil => rfl
    | cons x rest ih =>
      rw [lastOfShape_cons, ih (fun y hy => hpost y (List.mem_cons_of_mem _ hy))]
      simp [hpost x (List.mem_cons_self _ _)]
  intro pre
  induction pre with
  | nil => simp [lastOfShape_cons, hnone, hshape]
  | cons x rest ih => simp [lastOfShape_cons, ih]

theorem category_eq_of_shape_eq (h h2 : Handler R T) (hs : h.shape = h2.shape) :
    h.category = h2.category := by
  cases h <;> cases h2 <;> simp_all [Handler.shape, Handler.category]

/-- Dropping a handler that has a later handler of the same shape changes no `occurs`. -/
theorem occurs_drop_duplicate (c : Category) (pre mid post : List (Handler R T))
    (h h2 : Handler R T) (hs : h.shape = h2.shape) :
    occurs c (pre ++ h :: mid ++ h2 :: post) = occurs c (pre ++ mid ++ h2 :: post) := by
  have hc := category_eq_of_shape_eq h h2 hs
  simp only [occurs, List.any_append, List.any_cons, hc, List.append_assoc, List.cons_append]
  cases List.any pre _ <;> cases List.any mid _ <;> cases (h2.category == some c) <;> simp

/-- Claim C10.  Registering the same callback shape more than once keeps the most recent
handler.  For every handler list and prior registry: (1) for a handler `h` of shape `s`
after which no handler of shape `s` follows in the list, the slot of `s` holds `h` after the
call; (2) the same holds across two successive calls, for the concatenation of their lists;
(3) the returned intent is the one returned when an earlier duplicate of a shape is left
out, so it is the same as if the shape had been registered once.  `RegisterHandlers` is a
total function: a duplicate never fails. -/
theorem RegisterHandlers_last_wins (d : DtoDecls) (reg : DefaultHandlers R T) :
    (∀ (pre post : List (Handler R T)) (h : Handler R T) (s : Shape),
        h.shape = some s → (∀ x ∈ post, x.shape ≠ some s) →
        (RegisterHandlers d (pre ++ h :: post) reg).2.slotValue s = h)
    ∧ (∀ (hs1 hs2 pre post : List (Handler R T)) (h : Handler R T) (s : Shape),
        hs1 ++ hs2 = pre ++ h :: post →
        h.shape = some s → (∀ x ∈ post, x.shape ≠ some s) →
        (RegisterHandlers d hs2 (RegisterHandlers d hs1 reg).2).2.slotValue s = h)
    ∧ (∀ (pre mid post : List (Handler R T)) (h h2 : Handler R T),
        h.shape = h2.shape →
        (RegisterHandlers d (pre ++ h :: mid ++ h2 :: post) reg).1
          = (RegisterHandlers d (pre ++ mid ++ h2 :: post) reg).1) := by
  refine ⟨?_, ?_, ?_⟩
  · intro pre post h s hshape hpost
    rw [registerHandlers_slot, lastOfShape_append_cons s h post hshape hpost pre]
    rfl
  · intro hs1 hs2 pre post h s heq hshape hpost
    have hlast := lastOfShape_append_cons s h post hshape hpost pre
    rw [← heq, lastOfShape_append] at hlast
    rw [registerHandlers_slot, registerHandlers_slot]
    cases h2 : lastOfShape s hs2 with
    | some x => simpa [h2] using hlast
    | none =>
      rw [h2] at hlast
      simp only at hlast
      simp [hlast]
  · intro pre mid post h h2 hshape
    rw [registerHandlers_intent, registerHandlers_intent]
    simp only [unionOfRegistered, categoryBits, occurs_drop_duplicate _ pre mid post h h2 hshape]

/-- Claim C10 on a list with two guild handlers around a ready handler: the guild slot
holds the second one. -/
theorem RegisterHandlers_last_wins_witness :
    (RegisterHandlers exampleDto
        ([.GuildEventHandler (some (fun _ _ => some "first")), .ReadyHandler none,
          .GuildEventHandler (some (fun _ _ => some "second"))] :
          List (Handler Unit ExampleData))
        (DefaultHandlers.zero Unit ExampleData)).2.slotValue (.category .Guild)
      = .GuildEventHandler (some (fun _ _ => some "second")) :=
  (RegisterHandlers_last_wins exampleDto (DefaultHandlers.zero Unit ExampleData)).1
    [.GuildEventHandler (some (fun _ _ => some "first")), .ReadyHandler none] []
    (.GuildEventHandler (some (fun _ _ => some "second"))) (.category .Guild) rfl
    (by simp)

end RegisterSlots

/-! ## Dispatch -/

section DispatchFacts

variable {R : Type} {T : Category → Type}

/-- A dispatch function whose decoding fails returns the decode error and calls nothing. -/
theorem call_decode_error (lib : JsonLib T) (reg : DefaultHandlers R T)
    (f : eventParseFunc) (event : WSPayload) (message : Bytes) (err : Error)
    (hdecode : parseData lib f.category message = .error err) :
    f.call lib reg event message = (some err, []) := by
  cases f <;>
    simp only [eventParseFunc.category] at hdecode <;>
    simp only [eventParseFunc.call, guildHandler, channelHandler, guildMemberHandler,
      messageHandler, messageReactionHandler, atMessageHandler, directMessageHandler,
      audioHandler, messageAuditHandler, hdecode]

/-- A dispatch function whose decoding succeeds calls the slot of its category when the
slot is set. -/
theorem call_decode_ok_set (lib : JsonLib T) (reg : DefaultHandlers R T)
    (f : eventParseFunc) (event : WSPayload) (message : Bytes) (data : T f.category)
    (handle : WSPayload → T f.category → Option Error)
    (hdecode : parseData lib f.category message = .ok data)
    (hslot : reg.slot f.category = some handle) :
    f.call lib reg event message
      = (handle event data, [Call.category f.category event data]) := by
  cases f <;>
    simp only [eventParseFunc.category, DefaultHandlers.slot] at hdecode hslot data handle <;>
    simp only [eventParseFunc.call, guildHandler, channelHandler, guildMemberHandler,
      messageHandler, messageReactionHandler, atMessageHandler, directMessageHandler,
      audioHandler, messageAuditHandler, hdecode, hslot, eventParseFunc.category]

/-- A dispatch function whose decoding succeeds returns nil and calls nothing when the slot
of its category is not set. -/
theorem call_decode_ok_unset (lib : JsonLib T) (reg : DefaultHandlers R T)
    (f : eventParseFunc) (event : WSPayload) (message : Bytes) (data : T f.category)
    (hdecode : parseData lib f.category message = .ok data)
    (hslot : reg.slot f.category = none) :
    f.call lib reg event message = (none, []) := by
  cases f <;>
    simp only [eventParseFunc.category, DefaultHandlers.slot] at hdecode hslot data <;>
    simp only [eventParseFunc.call, guildHandler, channelHandler, guildMemberHandler,
      messageHandler, messageReactionHandler, atMessageHandler, directMessageHandler,
      audioHandler, messageAuditHandler, hdecode, hslot]

/-- Claim C6.  For every frame whose (OPCode, Type) pair is not a key of the dispatch table,
`parseAndHandle` returns the result of the registered catch-all (Plain) handler called with
the frame and its full RawMessage, that call being the only one made, when a catch-all
handler is registered; it returns nil and calls no handler when none is registered. -/
theorem parseAndHandle_unmapped (d : DtoDecls) (lib : JsonLib T) (reg : DefaultHandlers R T)
    (event : WSPayload)
    (hkey : eventParseFuncMap d event.OPCode event.Type_ = none) :
    (∀ plain, reg.Plain = some plain →
        parseAndHandle d lib reg event
          = (plain event event.RawMessage, [Call.Plain event event.RawMessage]))
    ∧ (reg.Plain = none → parseAndHandle d lib reg event = (none, [])) := by
  constructor
  · intro plain hplain
    simp only [parseAndHandle, hkey, hplain]
  · intro hplain
    simp only [parseAndHandle, hkey, hplain]

/-- Claim C6 on a frame with an event type outside the table and a catch-all handler that
returns an error. -/
theorem parseAndHandle_unmapped_witness :
    parseAndHandle exampleDto exampleLib
        ({ DefaultHandlers.zero Unit ExampleData with
            Plain := some (fun _ _ => some "plain") })
        { OPCode := 0, Type_ := .other "FORUM_THREAD_CREATE", RawMessage := [1, 2] }
      = (some "plain",
          [Call.Plain { OPCode := 0, Type_ := .other "FORUM_THREAD_CREATE",
                        RawMessage := [1, 2] } [1, 2]]) :=
  (parseAndHandle_unmapped exampleDto exampleLib
    ({ DefaultHandlers.zero Unit ExampleData with Plain := some (fun _ _ => some "plain") })
    { OPCode := 0, Type_ := .other "FORUM_THREAD_CREATE", RawMessage := [1, 2] }
    (by decide)).1 (fun _ _ => some "plain") rfl

/-- Claim C7.  For every frame whose (OPCode, Type) is in the dispatch table and whose `d`
payload fails to deserialize into the structure of the category, `parseAndHandle` returns
the decode error, which is not nil, and calls no handler at all, whichever of the nine
dispatch functions the table gives and whatever the registry holds. -/
theorem parseAndHandle_decode_error (d : DtoDecls) (lib : JsonLib T)
    (reg : DefaultHandlers R T) (event : WSPayload) (f : eventParseFunc) (err : Error)
    (hkey : eventParseFuncMap d event.OPCode event.Type_ = some f)
    (hdecode : parseData lib f.category event.RawMessage = .error err) :
    parseAndHandle d lib reg event = (some err, [])
    ∧ (parseAndHandle d lib reg event).1 ≠ none
    ∧ (parseAndHandle d lib reg event).2 = [] := by
  have h : parseAndHandle d lib reg event = (some err, []) := by
    simp only [parseAndHandle, hkey]
    exact call_decode_error lib reg f event event.RawMessage err hdecode
  rw [h]
  simp

/-- Claim C7 on a guild frame with an empty payload, with both the guild handler and the
catch-all handler registered. -/
theorem parseAndHandle_decode_error_witness :
    parseAndHandle exampleDto exampleLib
        ({ DefaultHandlers.zero Unit ExampleData with
            Plain := some (fun _ _ => some "plain"),
            Guild := some (fun _ _ => some "guild") })
        { OPCode := 0, Type_ := .EventGuildCreate, RawMessage := [] }
      = (some "unexpected end of JSON input", []) :=
  (parseAndHandle_decode_error exampleDto exampleLib
    ({ DefaultHandlers.zero Unit ExampleData with
        Plain := some (fun _ _ => some "plain"), Guild := some (fun _ _ => some "guild") })
    { OPCode := 0, Type_ := .EventGuildCreate, RawMessage := [] } .guildHandler
    "unexpected end of JSON input" (by decide) rfl).1

/-- Claim C8.  For every frame whose (OPCode, Type) is in the dispatch table and whose
payload decodes: when the registry slot of the category is set, `parseAndHandle` returns
exactly the result of that handler called with the frame and the decoded data, and that
call is the only one made; when the slot is not set, `parseAndHandle` returns nil and calls
no handler of any kind. -/
theorem parseAndHandle_decoded (d : DtoDecls) (lib : JsonLib T)
    (reg : DefaultHandlers R T) (event : WSPayload) (f : eventParseFunc)
    (data : T f.category)
    (hkey : eventParseFuncMap d event.OPCode event.Type_ = some f)
    (hdecode : parseData lib f.category event.RawMessage = .ok data) :
    (∀ handle, reg.slot f.category = some handle →
        parseAndHandle d lib reg event
          = (handle event data, [Call.category f.category event data]))
    ∧ (reg.slot f.category = none → parseAndHandle d lib reg event = (none, [])) := by
  constructor
  · intro handle hslot
    simp only [parseAndHandle, hkey]
    exact call_decode_ok_set lib reg f event event.RawMessage data handle hdecode hslot
  · intro hslot
    simp only [parseAndHandle, hkey]
    exact call_decode_ok_unset lib reg f event event.RawMessage data hdecode hslot

/-- Claim C8 on an audio frame whose body is `{"d":{}}` and an audio handler that reports
the zero value it is given. -/
theorem parseAndHandle_decoded_witness :
    parseAndHandle exampleDto exampleLib
        ({ DefaultHandlers.zero Unit ExampleData with
            Audio := some (fun _ n => if n = 0 then some "zero" else none) })
        { OPCode := 0, Type_ := .EventAudioOnMic, RawMessage := emptyObjectFrame }
      = (some "zero",
          [Call.category .Audio
            { OPCode := 0, Type_ := .EventAudioOnMic, RawMessage := emptyObjectFrame }
            (0 : Nat)]) :=
  (parseAndHandle_decoded exampleDto exampleLib
    ({ DefaultHandlers.zero Unit ExampleData with
        Audio := some (fun _ n => if n = 0 then some "zero" else none) })
    { OPCode := 0, Type_ := .EventAudioOnMic, RawMessage := emptyObjectFrame } .audioHandler
    (0 : Nat) (by decide) rfl).1 (fun _ n => if n = 0 then some "zero" else none) rfl

/-- Claim C9, refuted on the guild frame with body `{"d":{}}`, with the guild slot not set
and a catch-all handler registered that would return an error.  The frame is in the table;
`gjson.Get` extracts `{}` and `json.Unmarshal` decodes it into the zero value, so the
payload decodes; the guild slot is nil; the catch-all slot is set; and yet `parseAndHandle`
returns nil and its list of calls is empty, so the catch-all handler is not called. -/
theorem guild_frame_skips_catch_all :
    eventParseFuncMap exampleDto 0 .EventGuildCreate = some .guildHandler
    ∧ exampleLib.gjsonGet emptyObjectFrame "d" = [123, 125]
    ∧ parseData exampleLib .Guild emptyObjectFrame = .ok 0
    ∧ ({ DefaultHandlers.zero Unit ExampleData with
          Plain := some (fun _ _ => some "plain") }).slot .Guild = none
    ∧ ({ DefaultHandlers.zero Unit ExampleData with
          Plain := some (fun _ _ => some "plain") }).Plain.isSome = true
    ∧ parseAndHandle exampleDto exampleLib
        ({ DefaultHandlers.zero Unit ExampleData with
            Plain := some (fun _ _ => some "plain") })
        { OPCode := 0, Type_ := .EventGuildCreate, RawMessage := emptyObjectFrame }
      = (none, [])
    ∧ ¬ (parseAndHandle exampleDto exampleLib
          ({ DefaultHandlers.zero Unit ExampleData with
              Plain := some (fun _ _ => some "plain") })
          { OPCode := 0, Type_ := .EventGuildCreate, RawMessage := emptyObjectFrame }
        = (some "plain",
            [Call.Plain
              { OPCode := 0, Type_ := .EventGuildCreate, RawMessage := emptyObjectFrame }
              emptyObjectFrame])) := by
  have hrun : parseAndHandle exampleDto exampleLib
      ({ DefaultHandlers.zero Unit ExampleData with
          Plain := some (fun _ _ => some "plain") })
      { OPCode := 0, Type_ := .EventGuildCreate, RawMessage := emptyObjectFrame }
        = (none, []) := rfl
  refine ⟨by decide, by decide, rfl, rfl, rfl, hrun, ?_⟩
  rw [hrun]
  intro h
  have h1 := congrArg Prod.fst h
  simp at h1

/-- Claim C9, amended.  For every frame whose (OPCode, Type) is in the dispatch table and
whose payload decodes, when the registry slot of the category is not set `parseAndHandle`
returns nil and calls no handler: the catch-all (Plain) handler is not called for that
frame, whether or not one is registered. -/
theorem parseAndHandle_no_fallthrough (d : DtoDecls) (lib : JsonLib T)
    (reg : DefaultHandlers R T) (event : WSPayload) (f : eventParseFunc)
    (data : T f.category)
    (hkey : eventParseFuncMap d event.OPCode event.Type_ = some f)
    (hdecode : parseData lib f.category event.RawMessage = .ok data)
    (hslot : reg.slot f.category = none) :
    (parseAndHandle d lib reg event).1 = none
    ∧ (parseAndHandle d lib reg event).2 = []
    ∧ Call.Plain event event.RawMessage ∉ (parseAndHandle d lib reg event).2 := by
  have h : parseAndHandle d lib reg event = (none, []) := by
    simp only [parseAndHandle, hkey]
    exact call_decode_ok_unset lib reg f event event.RawMessage data hdecode hslot
  rw [h]
  simp

/-- The amended claim C9 on the message frame with body `{"d":{}}`, with only a catch-all
handler registered. -/
theorem parseAndHandle_no_fallthrough_witness :
    (parseAndHandle exampleDto exampleLib
        ({ DefaultHandlers.zero Unit ExampleData with
            Plain := some (fun _ _ => some "plain") })
        { OPCode := 0, Type_ := .EventMessageCreate, RawMessage := emptyObjectFrame }).2
      = [] :=
  (parseAndHandle_no_fallthrough exampleDto exampleLib
    ({ DefaultHandlers.zero Unit ExampleData with Plain := some (fun _ _ => some "plain") })
    { OPCode := 0, Type_ := .EventMessageCreate, RawMessage := emptyObjectFrame }
    .messageHandler (0 : Nat) (by decide) rfl rfl).2.1

end DispatchFacts

/-! ## The local session manager -/

/-- Claim C3, evaluated.  On the manager that `Start` has initialised for one shard, the
first `Stop` closes the stop channel and leaves `isStop` false; the second `Stop` then
closes the closed channel, which panics, and so does the cancellation branch of `Start`
after one `Stop`.  `Stop` is not idempotent. -/
theorem Stop_twice_panics :
    ChanManager.Start.init exampleManager New exampleAP "token" 0
      = .ok { isStop := false, stop := .made, sessionChan := some ⟨1, [exampleSession]⟩ }
    ∧ ChanManager.Stop
        { isStop := false, stop := .made, sessionChan := some ⟨1, [exampleSession]⟩ }
      = .ok { isStop := false, stop := .closed, sessionChan := some ⟨1, [exampleSession]⟩ }
    ∧ ChanManager.Stop
        { isStop := false, stop := .closed, sessionChan := some ⟨1, [exampleSession]⟩ }
      = .error "close of closed channel"
    ∧ ChanManager.stopTimes 2
        { isStop := false, stop := .made, sessionChan := some ⟨1, [exampleSession]⟩ }
      = .error "close of closed channel"
    ∧ ChanManager.Start.onDone
        { isStop := false, stop := .closed, sessionChan := some ⟨1, [exampleSession]⟩ }
      = .error "close of closed channel" := by
  refine ⟨rfl, rfl, rfl, rfl, rfl⟩

theorem newConnect_returns (m : ManagerDecls) (ClientImplNew : Session → Client)
    (session : Session) :
    ∃ effects, ChanManager.newConnect m ClientImplNew session = .ok effects := by
  unfold ChanManager.newConnect
  split
  · exact ⟨_, rfl⟩
  · exact ⟨_, rfl⟩

/-- Claim C4, evaluated.  For a session whose client connects, identifies and then has
`Listening` return an error that `CanNotIdentify` classifies as not-identifiable, the panic
raised by `newConnect` is recovered by its deferred function: `newConnect` returns,
`PanicHandler` has been called, and the `session` argument has been sent back on
`sessionChan`.  The process does not terminate and the shard is queued again. -/
theorem newConnect_not_identifiable_requeues :
    exampleManager.CanNotIdentify "4914" = true
    ∧ ChanManager.newConnect exampleManager
        (fun s =>
          { Connect := .ok none, Resume := .ok none, Identify := .ok none,
            Listening := .ok (some "4914"),
            Session := { s with ID := "session-1", LastSeq := 7 } })
        exampleSession
      = .ok { sent := [exampleSession],
              panicHandled :=
                [("can not identify because server return 4914, so process exit",
                  exampleSession)] } := by
  refine ⟨by decide, ?_⟩
  rfl

/-- Claim C5.  For every `Listening` error that is not classified not-identifiable,
`newConnect` sends exactly one session on `sessionChan`, and it is the current session of
the client with: (a) when `CanNotResume` holds for the error, `ID = ""` and `LastSeq = 0`,
both cleared, and every other field unchanged; (b) otherwise the current session unchanged,
`ID` and `LastSeq` included.  In no case is exactly one of `ID` and `LastSeq` cleared. -/
theorem newConnect_requeues_current (m : ManagerDecls) (ClientImplNew : Session → Client)
    (session : Session) (err : Error)
    (hconnect : (ClientImplNew session).Connect = .ok none)
    (hshake : (if session.ID ≠ "" then (ClientImplNew session).Resume
                else (ClientImplNew session).Identify) = .ok none)
    (hlisten : (ClientImplNew session).Listening = .ok (some err))
    (hidentify : m.CanNotIdentify err = false) :
    ∃ s : Session,
      ChanManager.newConnect m ClientImplNew session
        = .ok { sent := [s], panicHandled := [] }
      ∧ (m.CanNotResume err = true →
          s = { (ClientImplNew session).Session with ID := "", LastSeq := 0 }
          ∧ s.ID = "" ∧ s.LastSeq = 0
          ∧ s.URL = (ClientImplNew session).Session.URL
          ∧ s.Token = (ClientImplNew session).Session.Token
          ∧ s.Handlers = (ClientImplNew session).Session.Handlers
          ∧ s.Shards = (ClientImplNew session).Session.Shards)
      ∧ (m.CanNotResume err = false → s = (ClientImplNew session).Session)
      ∧ ((s.ID = "" ∧ s.LastSeq = 0)
          ∨ (s.ID = (ClientImplNew session).Session.ID
              ∧ s.LastSeq = (ClientImplNew session).Session.LastSeq)) := by
  cases hres : m.CanNotResume err
  · refine ⟨(ClientImplNew session).Session, ?_, ?_, ?_, ?_⟩
    · simp only [ChanManager.newConnect, ChanManager.newConnect.body, hconnect, hshake,
        hlisten, hidentify, hres]
      simp
    · intro h
      cases h
    · intro _
      rfl
    · exact Or.inr ⟨rfl, rfl⟩
  · refine ⟨{ (ClientImplNew session).Session with ID := "", LastSeq := 0 }, ?_, ?_, ?_, ?_⟩
    · simp only [ChanManager.newConnect, ChanManager.newConnect.body, hconnect, hshake,
        hlisten, hidentify, hres]
      simp
    · intro _
      exact ⟨rfl, rfl, rfl, rfl, rfl, rfl, rfl⟩
    · intro h
      cases h
    · exact Or.inl ⟨rfl, rfl⟩

/-- Claim C5 on a resumed session whose `Listening` ends with the not-resumable error
"4009": the session sent back has `ID` and `LastSeq` cleared and the rest kept. -/
theorem newConnect_requeues_current_witness :
    ∃ s : Session,
      ChanManager.newConnect exampleManager
          (fun s0 =>
            { Connect := .ok none, Resume := .ok none, Identify := .error "not called",
              Listening := .ok (some "4009"),
              Session := { s0 with LastSeq := 42 } })
          { exampleSession with ID := "session-1", LastSeq := 40 }
        = .ok { sent := [s], panicHandled := [] }
      ∧ s = { exampleSession with ID := "", LastSeq := 0 } := by
  obtain ⟨s, hs, hres, _, _⟩ := newConnect_requeues_current exampleManager
    (fun s0 =>
      { Connect := .ok none, Resume := .ok none, Identify := .error "not called",
        Listening := .ok (some "4009"),
        Session := { s0 with LastSeq := 42 } })
    { exampleSession with ID := "session-1", LastSeq := 40 } "4009" rfl rfl rfl
    (by decide)
  exact ⟨s, hs, (hres (by decide)).1⟩

/-! ## Sessions in the queue and running connection tasks -/

theorem body_sent (m : ManagerDecls) (ClientImplNew : Session → Client) (session : Session) :
    ((ChanManager.newConnect.body m ClientImplNew session).2 = .ok ()
      ∧ (ChanManager.newConnect.body m ClientImplNew session).1.length ≤ 1)
    ∨ (∃ v, (ChanManager.newConnect.body m ClientImplNew session).2 = .error v
      ∧ (ChanManager.newConnect.body m ClientImplNew session).1 = []) := by
  unfold ChanManager.newConnect.body
  simp only []
  cases (ClientImplNew session).Connect with
  | error v => simp
  | ok e =>
    cases e with
    | some _ => simp
    | none =>
      simp only []
      cases (if session.ID ≠ "" then (ClientImplNew session).Resume
              else (ClientImplNew session).Identify) with
      | error v => simp
      | ok e =>
        cases e with
        | some _ => simp
        | none =>
          simp only []
          cases (ClientImplNew session).Listening with
          | error v => simp
          | ok e =>
            cases e with
            | none => simp
            | some err =>
              simp only []
              split <;> simp

theorem newConnect_sends_at_most_one (m : ManagerDecls) (ClientImplNew : Session → Client)
    (session : Session) :
    ∃ effects, ChanManager.newConnect m ClientImplNew session = .ok effects
      ∧ effects.sent.length ≤ 1 := by
  unfold ChanManager.newConnect
  rcases body_sent m ClientImplNew session with ⟨h2, h1⟩ | ⟨v, h2, h1⟩
  · rcases hb : ChanManager.newConnect.body m ClientImplNew session with ⟨sent, out⟩
    rw [hb] at h1 h2
    simp only at h1 h2
    subst h2
    exact ⟨_, rfl, h1⟩
  · rcases hb : ChanManager.newConnect.body m ClientImplNew session with ⟨sent, out⟩
    rw [hb] at h1 h2
    simp only at h1 h2
    subst h2 h1
    exact ⟨_, rfl, by simp⟩


theorem stop_sessionChan (l l2 : ChanManager) (h : ChanManager.Stop l = .ok l2) :
    l2.sessionChan = l.sessionChan := by
  unfold ChanManager.Stop at h
  split at h
  · split at h
    · cases h
    · cases h
      rfl
  · cases h
    rfl

theorem onDone_sessionChan (l l2 : ChanManager) (h : ChanManager.Start.onDone l = .ok l2) :
    l2.sessionChan = l.sessionChan := by
  unfold ChanManager.Start.onDone at h
  split at h
  · split at h
    · cases h
    · cases h
      rfl
  · cases h
    rfl

theorem sendAll_some (xs : List Session) :
    ∀ (ch ch2 : SessionChan), ch.sendAll xs = some ch2 →
      ch2.capacity = ch.capacity ∧ ch2.buffer.length = ch.buffer.length + xs.length := by
  induction xs with
  | nil =>
    intro ch ch2 h
    simp only [SessionChan.sendAll, Option.some.injEq] at h
    subst h
    simp
  | cons x rest ih =>
    intro ch ch2 h
    simp only [SessionChan.sendAll, SessionChan.send] at h
    split at h
    · rename_i ch1 hsend
      split at hsend
      · cases hsend
        obtain ⟨hc, hl⟩ := ih _ _ h
        simp only [List.length_append, List.length_singleton] at hl
        simp only [List.length_cons]
        exact ⟨hc, by omega⟩
      · cases hsend
    · cases h

theorem sendAll_room (xs : List Session) :
    ∀ (ch : SessionChan), ch.buffer.length + xs.length ≤ ch.capacity →
      ∃ ch2, ch.sendAll xs = some ch2 := by
  induction xs with
  | nil =>
    intro ch _
    exact ⟨ch, rfl⟩
  | cons x rest ih =>
    intro ch h
    simp only [List.length_cons] at h
    have hlt : ch.buffer.length < ch.capacity := by omega
    simp only [SessionChan.sendAll, SessionChan.send, hlt, if_true]
    apply ih
    simp only [List.length_append, List.length_singleton]
    omega

/-- Every move keeps the count of sessions: those in the queue, the one the loop may hold
and those of the working tasks are together at most the capacity of the queue. -/
theorem step_keeps_count (m : ManagerDecls) (n : Nat) (sys sys2 : System) (a : Action)
    (hinv : ∃ ch, sys.l.sessionChan = some ch ∧ ch.capacity = n
      ∧ ch.buffer.length + sys.loop.held + sys.working.length ≤ n)
    (hstep : sys.step m a = some sys2) :
    ∃ ch, sys2.l.sessionChan = some ch ∧ ch.capacity = n
      ∧ ch.buffer.length + sys2.loop.held + sys2.working.length ≤ n := by
  obtain ⟨ch, hch, hcap, hle⟩ := hinv
  cases a with
  | receive =>
    simp only [System.step, hch] at hstep
    cases hloop : sys.loop with
    | selecting =>
      rw [hloop] at hstep hle
      simp only [SessionChan.recv] at hstep
      cases hbuf : ch.buffer with
      | nil =>
        rw [hbuf] at hstep
        cases hstep
      | cons session rest =>
        rw [hbuf] at hstep hle
        simp only [Option.some.injEq] at hstep
        subst hstep
        refine ⟨_, rfl, hcap, ?_⟩
        simp only [LoopState.held, List.length_cons] at hle ⊢
        omega
    | sleeping s =>
      rw [hloop] at hstep
      cases hstep
    | returned =>
      rw [hloop] at hstep
      cases hstep
  | launch =>
    simp only [System.step] at hstep
    cases hloop : sys.loop with
    | selecting =>
      rw [hloop] at hstep
      cases hstep
    | sleeping s =>
      rw [hloop] at hstep hle
      simp only [Option.some.injEq] at hstep
      subst hstep
      refine ⟨ch, hch, hcap, ?_⟩
      simp only [LoopState.held, List.length_append, List.length_singleton] at hle ⊢
      omega
    | returned =>
      rw [hloop] at hstep
      cases hstep
  | done =>
    simp only [System.step] at hstep
    cases hloop : sys.loop with
    | selecting =>
      rw [hloop] at hstep hle
      simp only at hstep
      cases hdone : ChanManager.Start.onDone sys.l with
      | error p =>
        rw [hdone] at hstep
        cases hstep
      | ok l2 =>
        rw [hdone] at hstep
        simp only [Option.some.injEq] at hstep
        subst hstep
        refine ⟨ch, ?_, hcap, ?_⟩
        · simp only [onDone_sessionChan _ _ hdone, hch]
        · simp only [LoopState.held] at hle ⊢
          omega
    | sleeping s =>
      rw [hloop] at hstep
      cases hstep
    | returned =>
      rw [hloop] at hstep
      cases hstep
  | taskRun i ClientImplNew =>
    simp only [System.step, hch] at hstep
    cases hget : sys.working[i]? with
    | none =>
      rw [hget] at hstep
      cases hstep
    | some session =>
      rw [hget] at hstep
      simp only at hstep
      obtain ⟨effects, heff, hone⟩ := newConnect_sends_at_most_one m ClientImplNew session
      rw [heff] at hstep
      simp only at hstep
      cases hsend : ch.sendAll effects.sent with
      | none =>
        rw [hsend] at hstep
        cases hstep
      | some ch2 =>
        rw [hsend] at hstep
        simp only [Option.some.injEq] at hstep
        subst hstep
        obtain ⟨hc2, hl2⟩ := sendAll_some _ _ _ hsend
        obtain ⟨hlt, -⟩ := List.getElem?_eq_some.mp hget
        refine ⟨ch2, rfl, hc2.trans hcap, ?_⟩
        simp only [List.length_eraseIdx, hlt, if_true]
        omega
  | taskReturn =>
    simp only [System.step] at hstep
    cases hleave : sys.leaving with
    | zero =>
      rw [hleave] at hstep
      cases hstep
    | succ k =>
      rw [hleave] at hstep
      simp only [Option.some.injEq] at hstep
      subst hstep
      exact ⟨ch, hch, hcap, hle⟩
  | stop =>
    simp only [System.step] at hstep
    cases hstop : ChanManager.Stop sys.l with
    | error p =>
      rw [hstop] at hstep
      cases hstep
    | ok l2 =>
      rw [hstop] at hstep
      simp only [Option.some.injEq] at hstep
      subst hstep
      exact ⟨ch, by simp only [stop_sessionChan _ _ hstop, hch], hcap, hle⟩

theorem run_keeps_count (m : ManagerDecls) (n : Nat) (acts : List Action) :
    ∀ (sys sys2 : System),
      (∃ ch, sys.l.sessionChan = some ch ∧ ch.capacity = n
        ∧ ch.buffer.length + sys.loop.held + sys.working.length ≤ n) →
      System.run m sys acts = some sys2 →
      ∃ ch, sys2.l.sessionChan = some ch ∧ ch.capacity = n
        ∧ ch.buffer.length + sys2.loop.held + sys2.working.length ≤ n := by
  induction acts with
  | nil =>
    intro sys sys2 hinv hrun
    simp only [System.run, Option.some.injEq] at hrun
    subst hrun
    exact hinv
  | cons a rest ih =>
    intro sys sys2 hinv hrun
    simp only [System.run] at hrun
    cases hstep : sys.step m a with
    | none =>
      rw [hstep] at hrun
      cases hrun
    | some sys1 =>
      rw [hstep] at hrun
      exact ih sys1 sys2 (step_keeps_count m n sys sys1 a hinv hstep) hrun

theorem seed_length (apInfo : WebsocketAP) (token : String) (handlers : Nat) :
    ∀ (n i : Nat) (buffer : List Session),
      (ChanManager.Start.seed apInfo token handlers n i buffer).length = buffer.length + n := by
  intro n
  induction n with
  | zero =>
    intro i buffer
    rfl
  | succ n ih =>
    intro i buffer
    simp only [ChanManager.Start.seed, ih, List.length_append, List.length_singleton]
    omega

theorem init_seeds (m : ManagerDecls) (l l0 : ChanManager) (apInfo : WebsocketAP)
    (token : String) (handlers : Nat)
    (hinit : ChanManager.Start.init m l apInfo token handlers = .ok l0) :
    ∃ ch, l0.sessionChan = some ch ∧ ch.capacity = apInfo.Shards
      ∧ ch.buffer.length = apInfo.Shards := by
  unfold ChanManager.Start.init at hinit
  split at hinit
  · cases hinit
  · cases hinit
    exact ⟨_, rfl, rfl, by simp [seed_length]⟩


/-- In a state that keeps the count, a working task can always make its move: its send
finds room in the queue and does not block. -/
theorem taskRun_enabled (m : ManagerDecls) (n : Nat) (sys : System) (i : Nat)
    (ClientImplNew : Session → Client) (session : Session)
    (hinv : ∃ ch, sys.l.sessionChan = some ch ∧ ch.capacity = n
      ∧ ch.buffer.length + sys.loop.held + sys.working.length ≤ n)
    (hget : sys.working[i]? = some session) :
    ∃ sys2, sys.step m (.taskRun i ClientImplNew) = some sys2 := by
  obtain ⟨ch, hch, hcap, hle⟩ := hinv
  obtain ⟨effects, heff, hone⟩ := newConnect_sends_at_most_one m ClientImplNew session
  obtain ⟨hlt, -⟩ := List.getElem?_eq_some.mp hget
  obtain ⟨ch2, hsend⟩ := sendAll_room effects.sent ch (by omega)
  refine ⟨{ sys with l := { sys.l with sessionChan := some ch2 },
                       working := sys.working.eraseIdx i,
                       leaving := sys.leaving + 1 }, ?_⟩
  simp only [System.step, hch, hget, heff, hsend]

/-- Claim C11, refuted for one shard.  The task of the only shard fails to connect and
sends its session back (local.go:94) before it returns (local.go:95): the queue then holds
one session while one connection task is still running, which is more than the shard
count.  The loop can receive that session and launch the shard again before the first task
has returned: two connection tasks are then running for one shard. -/
theorem requeue_precedes_return :
    ChanManager.Start.init exampleManager New exampleAP "token" 0
      = .ok { isStop := false, stop := .made, sessionChan := some ⟨1, [exampleSession]⟩ }
    ∧ exampleAP.Shards = 1
    ∧ System.run exampleManager
        (System.start
          { isStop := false, stop := .made, sessionChan := some ⟨1, [exampleSession]⟩ })
        [.receive, .launch, .taskRun 0 failingClient]
      = some { l := { isStop := false, stop := .made,
                      sessionChan := some ⟨1, [exampleSession]⟩ },
               loop := .selecting, working := [], leaving := 1 }
    ∧ System.queued { l := { isStop := false, stop := .made,
                             sessionChan := some ⟨1, [exampleSession]⟩ },
                      loop := .selecting, working := [], leaving := 1 } = 1
    ∧ System.running { l := { isStop := false, stop := .made,
                              sessionChan := some ⟨1, [exampleSession]⟩ },
                       loop := .selecting, working := [], leaving := 1 } = 1
    ∧ ¬ (System.queued { l := { isStop := false, stop := .made,
                                sessionChan := some ⟨1, [exampleSession]⟩ },
                         loop := .selecting, working := [], leaving := 1 }
          + System.running { l := { isStop := false, stop := .made,
                                    sessionChan := some ⟨1, [exampleSession]⟩ },
                             loop := .selecting, working := [], leaving := 1 }
          ≤ exampleAP.Shards)
    ∧ (System.run exampleManager
        (System.start
          { isStop := false, stop := .made, sessionChan := some ⟨1, [exampleSession]⟩ })
        [.receive, .launch, .taskRun 0 failingClient, .receive, .launch]).map System.running
      = some 2 := by
  refine ⟨rfl, rfl, rfl, rfl, rfl, by decide, rfl⟩

/-- Claim C11, amended.  `Start` with shard count N seeds exactly N sessions into a queue
of capacity N; every run of a connection task ends normally and sends at most one session
back; and in every state reachable from the start of the loop by any interleaving of the
moves of the loop (receive, launch, cancellation), of calls of `Stop` and of the moves of
the connection tasks, the send of a task and its return being separate moves, the number of
sessions in the work queue plus the number of running connection tasks that have not yet
sent their session back or reached their return is at most N, also when the session that
the loop holds between its receive and the launch is counted in. -/
theorem queued_plus_working_le_shards (m : ManagerDecls) (l l0 : ChanManager)
    (apInfo : WebsocketAP) (token : String) (handlers : Nat)
    (hinit : ChanManager.Start.init m l apInfo token handlers = .ok l0) :
    (∃ ch, l0.sessionChan = some ch ∧ ch.capacity = apInfo.Shards
        ∧ ch.buffer.length = apInfo.Shards)
    ∧ (System.start l0).queued = apInfo.Shards
    ∧ (∀ (ClientImplNew : Session → Client) (session : Session),
        ∃ effects, ChanManager.newConnect m ClientImplNew session = .ok effects
          ∧ effects.sent.length ≤ 1)
    ∧ (∀ (acts : List Action) (sys : System),
        System.run m (System.start l0) acts = some sys →
        sys.queued + sys.working.length ≤ apInfo.Shards
        ∧ sys.queued + sys.loop.held + sys.working.length ≤ apInfo.Shards) := by
  obtain ⟨ch, hch, hcap, hlen⟩ := init_seeds m l l0 apInfo token handlers hinit
  refine ⟨⟨ch, hch, hcap, hlen⟩, ?_, newConnect_sends_at_most_one m, ?_⟩
  · simp only [System.queued, System.start, hch, hlen]
  · intro acts sys hrun
    have hstart : ∃ ch, (System.start l0).l.sessionChan = some ch ∧ ch.capacity = apInfo.Shards
        ∧ ch.buffer.length + (System.start l0).loop.held + (System.start l0).working.length
            ≤ apInfo.Shards :=
      ⟨ch, hch, hcap, by simp [System.start, LoopState.held, hlen]⟩
    obtain ⟨ch2, hch2, -, hle⟩ :=
      run_keeps_count m apInfo.Shards acts (System.start l0) sys hstart hrun
    simp only [System.queued, hch2]
    omega

/-- The amended claim C11 on two shards: both sessions are received and launched in turn,
the first task fails to connect and sends its session back, and the loop receives that
session while the first task has not yet returned.  No session is queued, the loop holds
one, one task still holds its session, and one task is leaving. -/
theorem queued_plus_working_le_shards_witness :
    ∃ sys,
      System.run exampleManager
          (System.start
            { isStop := false, stop := .made,
              sessionChan := some ⟨2, ChanManager.Start.seed exampleAP2 "token" 0 2 0 []⟩ })
          [.receive, .launch, .receive, .launch, .taskRun 0 failingClient, .receive]
        = some sys
      ∧ sys.queued = 0 ∧ sys.loop.held = 1 ∧ sys.working.length = 1 ∧ sys.leaving = 1
      ∧ sys.queued + sys.loop.held + sys.working.length ≤ exampleAP2.Shards :=
  ⟨_, rfl, rfl, rfl, rfl, rfl,
    ((queued_plus_working_le_shards exampleManager New _ exampleAP2 "token" 0 rfl).2.2.2
      [.receive, .launch, .receive, .launch, .taskRun 0 failingClient, .receive] _ rfl).2⟩

/-! ## Registration and dispatch agree -/

section Agreement

variable {R : Type} {T : Category → Type}

theorem mem_categoryEvents_iff (d : DtoDecls) (t : EventType) (c : Category) :
    t ∈ categoryEvents c
      ↔ ∃ f, eventParseFuncMap d d.WSDispatchEvent t = some f ∧ f.category = c := by
  cases c <;> cases t <;>
    simp [categoryEvents, eventParseFuncMap, eventParseFunc.category]

theorem key_category (d : DtoDecls) (op : OPCode) (t : EventType) (f : eventParseFunc)
    (h : eventParseFuncMap d op t = some f) :
    op = d.WSDispatchEvent ∧ t ∈ categoryEvents f.category
      ∧ ∀ c, t ∈ categoryEvents c → c = f.category := by
  unfold eventParseFuncMap at h
  split_ifs at h with hop
  refine ⟨hop, ?_, ?_⟩
  · cases t <;> simp only [Option.some.injEq, reduceCtorEq] at h <;> subst h <;>
      simp [categoryEvents, eventParseFunc.category]
  · intro c hc
    cases t <;> simp only [Option.some.injEq, reduceCtorEq] at h <;> subst h <;>
      cases c <;> simp [categoryEvents, eventParseFunc.category] at hc ⊢

theorem ofCategory_category (c : Category) (handle : EventHandler T c) :
    (Handler.ofCategory c handle : Handler R T).category = some c := by
  cases c <;> rfl

theorem ofCategory_shape (c : Category) (handle : EventHandler T c) :
    (Handler.ofCategory c handle : Handler R T).shape = some (.category c) := by
  cases c <;> rfl

theorem slot_of_slotValue (reg : DefaultHandlers R T) (c : Category)
    (handle : EventHandler T c)
    (h : reg.slotValue (.category c) = Handler.ofCategory c handle) :
    reg.slot c = handle := by
  cases c <;>
    simpa [DefaultHandlers.slotValue, Handler.ofCategory, DefaultHandlers.slot] using h


/-- The intent returned for a single handler of a category is `EventToIntent` of the event
set of the category. -/
theorem registerHandlers_single (d : DtoDecls) (c : Category) (handle : EventHandler T c)
    (reg : DefaultHandlers R T) :
    (RegisterHandlers d [Handler.ofCategory c handle] reg).1
      = d.EventToIntent (categoryEvents c) := by
  rw [registerHandlers_intent]
  cases c <;>
    simp [unionOfRegistered, Category.all, categoryBits, occurs, Handler.ofCategory,
      Handler.category, int_lor_zero, int_zero_lor]

end Agreement

/-- Claim C12.  Registration and dispatch agree.  (1) For every category, the event types
whose intent bits `RegisterHandlers` ORs in for a handler of that category, which are the
arguments of its `EventToIntent` call, are exactly the event types that `eventParseFuncMap`
maps, under `WSDispatchEvent`, to the dispatch function that reads the slot of that
category.  (2) Every key of the table is under `WSDispatchEvent` and belongs to the event
set of exactly one category, the one of its dispatch function.  (3) The intent returned for
a single handler of a category is `EventToIntent` of that event set.  (4) After a
registration in which a handler of a category is the last of its shape, every frame of an
event type of that event set whose payload decodes is dispatched to that handler, with the
frame and the decoded data, and to nothing else. -/
theorem registration_agrees_with_dispatch (d : DtoDecls) :
    (∀ (t : EventType) (c : Category),
        t ∈ categoryEvents c
          ↔ ∃ f, eventParseFuncMap d d.WSDispatchEvent t = some f ∧ f.category = c)
    ∧ (∀ (op : OPCode) (t : EventType) (f : eventParseFunc),
        eventParseFuncMap d op t = some f →
        op = d.WSDispatchEvent ∧ t ∈ categoryEvents f.category
          ∧ ∀ c, t ∈ categoryEvents c → c = f.category)
    ∧ (∀ (R : Type) (T : Category → Type) (c : Category) (handle : EventHandler T c)
        (reg : DefaultHandlers R T),
        (RegisterHandlers d [Handler.ofCategory c handle] reg).1
          = d.EventToIntent (categoryEvents c))
    ∧ (∀ (R : Type) (T : Category → Type) (lib : JsonLib T) (pre post : List (Handler R T))
        (c : Category) (handle : WSPayload → T c → Option Error)
        (reg : DefaultHandlers R T) (event : WSPayload) (data : T c),
        (∀ x ∈ post, x.shape ≠ some (.category c)) →
        event.OPCode = d.WSDispatchEvent →
        event.Type_ ∈ categoryEvents c →
        parseData lib c event.RawMessage = .ok data →
        parseAndHandle d lib
            (RegisterHandlers d (pre ++ Handler.ofCategory c (some handle) :: post) reg).2
            event
          = (handle event data, [Call.category c event data])) := by
  refine ⟨mem_categoryEvents_iff d, key_category d, ?_, ?_⟩
  · intro R T c handle reg
    exact registerHandlers_single d c handle reg
  · intro R T lib pre post c handle reg event data hpost hop htype hdecode
    obtain ⟨f, hf, rfl⟩ := (mem_categoryEvents_iff d event.Type_ c).mp htype
    have hslot : (RegisterHandlers d
        (pre ++ Handler.ofCategory f.category (some handle) :: post) reg).2.slot f.category
          = some handle := by
      apply slot_of_slotValue
      rw [registerHandlers_slot,
        lastOfShape_append_cons _ _ post (ofCategory_shape f.category (some handle)) hpost pre]
      rfl
    simp only [parseAndHandle, hop, hf]
    exact call_decode_ok_set lib _ f event event.RawMessage data handle hdecode hslot

/-- Claim C12 on an audio handler registered after a guild handler: the
`EventAudioFinish` frame with body `{"d":{}}` is dispatched to it. -/
theorem registration_agrees_with_dispatch_witness :
    parseAndHandle exampleDto exampleLib
        (RegisterHandlers exampleDto
          ([.GuildEventHandler none,
            .AudioEventHandler (some (fun _ n => if n = 0 then some "zero" else none))] :
            List (Handler Unit ExampleData))
          (DefaultHandlers.zero Unit ExampleData)).2
        { OPCode := 0, Type_ := .EventAudioFinish, RawMessage := emptyObjectFrame }
      = (some "zero",
          [Call.category .Audio
            { OPCode := 0, Type_ := .EventAudioFinish, RawMessage := emptyObjectFrame }
            (0 : Nat)]) :=
  (registration_agrees_with_dispatch exampleDto).2.2.2 Unit ExampleData exampleLib
    [.GuildEventHandler none] [] .Audio (fun _ n => if n = 0 then some "zero" else none)
    (DefaultHandlers.zero Unit ExampleData)
    { OPCode := 0, Type_ := .EventAudioFinish, RawMessage := emptyObjectFrame } (0 : Nat)
    (by simp) rfl (by decide) rfl

end Botgo
